import Mathlib

/-!
The command workflows of package `cli` of lotus-offline-sign

A shallow embedding of the command actions in `src/cli/offcontrol.go`,
`src/cli/offmpool.go` and `src/cli/offwithdraw.go`.

Every action is a straight-line Go closure that talks to a remote node and to
library helpers and returns an `error`.  The embedding keeps the statements in
source order.  The collaborators (node API, address parser, serializer, signer)
are fields of a `Node` record: pure oracles whose answers are universally
quantified in the theorems.  A run yields the `error` result together with the
trace of printed lines and of the collaborator calls the properties speak about,
so that "nothing is pushed" is a statement about the trace, also for failed runs.
-/

namespace OfflineSign

/-! ## Data model -/

/-- The go-address `Address`: a value wrapping a string; two addresses are equal
when the wrapped strings are. -/
structure Address where
  str : String
deriving DecidableEq, Repr

/-- The go-address `Undef`: the zero value. -/
def Address.Undef : Address := ⟨""⟩

/-- The go-address `Empty()`: `a == Undef`. -/
def Address.Empty (a : Address) : Bool := decide (a = Address.Undef)

/-- Token amounts are arbitrary-precision integers (`big.Int`). -/
abbrev TokenAmount := Int

/-- Content identifiers, kept abstract. -/
abbrev Cid := Nat

/-- Tipset keys, kept abstract. -/
abbrev TipSetKey := List Cid

/-- The source constant `types.EmptyTSK`. -/
def EmptyTSK : TipSetKey := []

/-- Serialized bytes. -/
abbrev Bytes := List Nat

/-- The fields of `types.Message` the commands read or write.  `Nonce` is a
`uint64`, `GasLimit` an `int64`, the amounts are big integers. -/
structure Message where
  To : Address
  From : Address
  Nonce : Nat
  Value : TokenAmount
  GasLimit : Int
  GasFeeCap : TokenAmount
  GasPremium : TokenAmount
  Method : Nat
  Params : Bytes
deriving DecidableEq, Repr

/-- A signature as produced by `sigs.Sign`, kept abstract. -/
abbrev Signature := Nat

/-- The go type `types.SignedMessage`. -/
structure SignedMessage where
  Message : Message
  Signature : Signature
deriving DecidableEq, Repr

/-- The go type `types.KeyInfo`: scheme tag (the field `Type`) and private key
bytes. -/
structure KeyInfo where
  Typ : String
  PrivateKey : Bytes
deriving DecidableEq, Repr

/-- The fields of the miner info snapshot (`api.StateMinerInfo`) the commands read. -/
structure MinerInfo where
  Owner : Address
  Worker : Address
  NewWorker : Address
  ControlAddresses : List Address
  WorkerChangeEpoch : Int
deriving DecidableEq, Repr

/-- The go type `types.TipSet`, as far as the commands read it. -/
structure TipSet where
  Key : TipSetKey
  Height : Int
deriving DecidableEq, Repr

/-- The result of `api.StateWaitMsg`: the receipt's exit code and the tipset of
inclusion. -/
structure MsgLookup where
  ExitCode : Int
  TipSet : TipSetKey
deriving DecidableEq, Repr

/-- The go type `api.MessageSendSpec`; the commands only set `MaxFee`. -/
structure MessageSendSpec where
  MaxFee : TokenAmount
deriving DecidableEq, Repr

/-- The typed actor-method parameters handed to `actors.SerializeParams`. -/
inductive Params where
  | changeWorkerAddress (NewWorker : Address) (NewControlAddrs : List Address)
  | withdrawBalance (AmountRequested : TokenAmount)
deriving DecidableEq, Repr

/-- Method numbers of `builtin.MethodsMiner` used by the commands. -/
def MethodsMiner.ChangeWorkerAddress : Nat := 3

/-- Method number of `ConfirmChangeWorkerAddress`. -/
def MethodsMiner.ConfirmChangeWorkerAddress : Nat := 21

/-- Method number of `WithdrawBalance`. -/
def MethodsMiner.WithdrawBalance : Nat := 16

/-! ## Errors, output and traces -/

/-- The go `error` values a command can return.  `ext` is an error produced by a
collaborator and passed through; `wrapped` is `xerrors.Errorf("ctx: %w", err)`;
the others are the errors the commands construct themselves, named after their
message text. -/
inductive Err where
  | ext (msg : String)
  | wrapped (ctx : String) (inner : Err)
  /-- The text "worker address already set to %s". -/
  | workerAlreadySet (maddr : Address)
  /-- The text "change to worker address %s already pending". -/
  | changeAlreadyPending (maddr : Address)
  /-- The text "no worker key change proposed". -/
  | noWorkerKeyChangeProposed
  /-- The text "worker key %s does not match current worker key proposal %s". -/
  | proposalDoesNotMatch (newAddr proposal : Address)
  /-- The text "worker key change cannot be confirmed until %d, current height is %d". -/
  | cannotConfirmUntil (epoch height : Int)
  /-- The text "Proposed worker address change not reflected on chain: ...". -/
  | proposedNotReflected (maddr found : Address)
  /-- The text "Confirmed worker address change not reflected on chain: ...". -/
  | confirmedNotReflected (newAddr found : Address)
  /-- The text "can't withdraw more funds than available; requested: %s; available: %s". -/
  | withdrawMoreThanAvailable (requested available : TokenAmount)
  /-- The text "no pending message found from %s with nonce %d". -/
  | noPendingMessage (sender : Address) (nonce : Nat)
  /-- The text "failed to estimate gas values" of the fee-cap band check. -/
  | failedToEstimateGasValues
  /-- A go run-time panic: the process stops, the command does not return. -/
  | panic (msg : String)
deriving DecidableEq, Repr

/-- The lines a command prints. -/
inductive Output where
  | remove (a : Address)
  | add (a : Address)
  | messageCid (c : Cid)
  | passReallyDoIt
  | addr (owner maddr newAddr : Address)
  | ownerMismatch (miOwner owner : Address)
  | proposeMessageCid (c : Cid)
  | proposeFailed
  | proposed (maddr : Address)
  | callConfirmAt (epoch : Int)
  | confirmedMessageCid (c : Cid)
  | workerChangeFailed
  | commandHelp
  | gasFeeCapGiven (v : ℚ)
  | changeGasFeeCap (v : ℚ)
  | gasFeeCapFixedTo (v : ℚ)
  | gasFeeCapFixed (nonce : Nat) (feeCap : TokenAmount)
  | newMessageCid (c : Cid)
  | lotusVersion (v : String)
  | maddrIs (a : Address)
  | ownerAddrIs (a : Address)
  | nonceIs (nonce : Nat)
  | requestedWithdrawal (c : Cid)
deriving DecidableEq, Repr

/-- One entry of a run's trace: a printed line or a collaborator call. -/
inductive Event where
  | out (o : Output)
  | stateMinerInfo (maddr : Address) (tsk : TipSetKey)
  | serializeParams (p : Params)
  | mpoolGetNonce (a : Address)
  | gasEstimateMessageGas (m : Message) (spec : Option MessageSendSpec)
  | toStorageBlock (m : Message)
  | sign (k : KeyInfo) (m : Message)
  | mpoolPush (sm : SignedMessage)
  | stateWaitMsg (c : Cid)
deriving DecidableEq, Repr

/-- A run of a command: the trace so far and either the value computed or the
error returned. -/
structure Run (α : Type) where
  trace : List Event
  res : Except Err α

namespace Run

/-- Continue with a value, no effect. -/
def ret {α : Type} (a : α) : Run α := ⟨[], .ok a⟩

/-- Return the error `e` from the command. -/
def fail {α : Type} (e : Err) : Run α := ⟨[], .error e⟩

/-- Sequencing: the second part runs only when the first did not return an error. -/
def andThen {α β : Type} (x : Run α) (f : α → Run β) : Run β :=
  match x.res with
  | .error e => ⟨x.trace, .error e⟩
  | .ok a => ⟨x.trace ++ (f a).trace, (f a).res⟩

instance : Monad Run where
  pure := ret
  bind := andThen

/-- Record one event. -/
def emit (e : Event) : Run Unit := ⟨[e], .ok ()⟩

/-- Print one line. -/
def println (o : Output) : Run Unit := emit (.out o)

/-- Print one line per element, in order. -/
def printAll (os : List Output) : Run Unit := ⟨os.map Event.out, .ok ()⟩

/-- The go idiom `v, err := f(...); if err != nil { return err }`. -/
def try_ {α : Type} (x : Except Err α) : Run α := ⟨[], x⟩

/-- The error of `x`, if any, wrapped as `xerrors.Errorf("ctx: %w", err)`. -/
def wrapErr {α : Type} (ctx : String) (x : Except Err α) : Except Err α :=
  match x with
  | .ok a => .ok a
  | .error e => .error (.wrapped ctx e)

/-- The go idiom `if err != nil { return xerrors.Errorf("ctx: %w", err) }`. -/
def tryWrap {α : Type} (ctx : String) (x : Except Err α) : Run α := ⟨[], wrapErr ctx x⟩

/-- A recorded collaborator call followed by the `err != nil` check. -/
def call {α : Type} (e : Event) (x : Except Err α) : Run α := ⟨[e], x⟩

/-- A recorded collaborator call whose error is wrapped. -/
def callWrap {α : Type} (e : Event) (ctx : String) (x : Except Err α) : Run α :=
  ⟨[e], wrapErr ctx x⟩

/-- The go statement `return err` for an `err` variable that may be nil. -/
def returnErr (err : Option Err) : Run Unit :=
  match err with
  | none => ⟨[], .ok ()⟩
  | some e => ⟨[], .error e⟩

end Run

/-- The signed messages handed to `api.MpoolPush` during a run, in order. -/
def pushes (t : List Event) : List SignedMessage :=
  t.filterMap fun e => match e with
    | .mpoolPush sm => some sm
    | _ => none

/-- The addresses printed as "Remove", in order of printing. -/
def removed (t : List Event) : List Address :=
  t.filterMap fun e => match e with
    | .out (.remove a) => some a
    | _ => none

/-- The addresses printed as "Add", in order of printing. -/
def added (t : List Event) : List Address :=
  t.filterMap fun e => match e with
    | .out (.add a) => some a
    | _ => none

/-! ## Collaborators -/

/-- The remote node API and the library helpers a command calls.  Each field is
the answer the collaborator gives for the arguments.  A `Node` stands for the
API handle obtained from `GetFullNodeAPI`; a command that gets no handle returns
that error before doing anything else, which is not modelled.  A value of type
`float64` is modelled by the rational it denotes (NaN and infinities are not
modelled); the two primitives of `float64` arithmetic the commands use, the
rounded product and the conversion to `int64`, are fields as well. -/
structure Node where
  NewFromString : String → Except Err Address
  StateMinerInfo : Address → TipSetKey → Except Err MinerInfo
  StateAccountKey : Address → TipSetKey → Except Err Address
  StateLookupID : Address → TipSetKey → Except Err Address
  SerializeParams : Params → Except Err Bytes
  MpoolGetNonce : Address → Except Err Nat
  GasEstimateMessageGas : Message → Option MessageSendSpec → TipSetKey → Except Err Message
  hexDecodeString : String → Except Err Bytes
  jsonUnmarshal : Bytes → Except Err KeyInfo
  ToStorageBlock : Message → Except Err Cid
  Sign : KeyInfo → Cid → Except Err Signature
  MpoolPush : SignedMessage → Except Err Cid
  StateWaitMsg : Cid → Except Err MsgLookup
  ChainHead : Except Err TipSet
  MpoolPending : TipSetKey → Except Err (List SignedMessage)
  ChainGetMessage : Cid → Except Err Message
  cidDecode : String → Except Err Cid
  ParseUint : String → Except Err Nat
  BigFromString : String → Except Err TokenAmount
  ParseFIL : String → Except Err TokenAmount
  StateMinerAvailableBalance : Address → TipSetKey → Except Err TokenAmount
  Version : Except Err String
  /-- The library function `strconv.ParseFloat(s, 64)`; `none` when it errs. -/
  ParseFloat : String → Option ℚ
  /-- The `float64` product `a * b` of the platform (IEEE 754 binary64): the exact
  product rounded to a `float64`. -/
  mulFloat64 : ℚ → ℚ → ℚ
  /-- The result of the go conversion `int64(f)` for a `float64` `f` whose
  truncation is outside the range of `int64`; the language leaves it to the
  implementation. -/
  int64OutOfRange : ℚ → Int
  /-- The library constant `config.DefaultDefaultMaxFee`, in the smallest unit. -/
  DefaultDefaultMaxFee : TokenAmount

/-! ## Go maps used as sets -/

/-- A go `map[address.Address]struct{}`: its keys, without repetition.  The
order of the list stands for one of the iteration orders `range` may take. -/
abbrev AddrSet := List Address

/-- The go statement `m[a] = struct{}{}`. -/
def AddrSet.put (m : AddrSet) (a : Address) : AddrSet :=
  if a ∈ m then m else m ++ [a]

/-- The go statement `delete(m, a)`. -/
def AddrSet.delete (m : AddrSet) (a : Address) : AddrSet :=
  m.filter fun b => decide (b ≠ a)

/-- The go expression `_, exists := m[a]`. -/
def AddrSet.has (m : AddrSet) (a : Address) : Bool := decide (a ∈ m)

/-! ## `offline-control set` (offcontrol.go, actorControlSet) -/

/-- The flags and arguments of `offline-control set`. -/
structure ControlSetArgs where
  maddr : String
  owner : String
  key : String
  args : List String

/-- The first loop of `actorControlSet`: every registered control address is
resolved with `StateAccountKey` and put into `del` and `existing`. -/
def controlLoop (n : Node) : List Address → AddrSet × AddrSet → Except Err (AddrSet × AddrSet)
  | [], s => .ok s
  | controlAddress :: rest, (del, existing) =>
    match n.StateAccountKey controlAddress EmptyTSK with
    | .error e => .error e
    | .ok ka => controlLoop n rest (del.put ka, existing.put ka)

/-- The second loop of `actorControlSet`: every argument is parsed, resolved,
looked up, deleted from `del` and appended to `toSet`.  The index `i` only
enters the text of the parse error. -/
def desiredLoop (n : Node) : List String → Nat → AddrSet × List Address →
    Except Err (AddrSet × List Address)
  | [], _, s => .ok s
  | as :: rest, i, (del, toSet) =>
    match n.NewFromString as with
    | .error e => .error (.wrapped ("parsing address " ++ toString i) e)
    | .ok a =>
      match n.StateAccountKey a EmptyTSK with
      | .error e => .error e
      | .ok ka =>
        match n.StateLookupID ka EmptyTSK with
        | .error e => .error (.wrapped "looking up" e)
        | .ok _ => desiredLoop n rest (i + 1) (del.delete ka, toSet ++ [ka])

/-- The action of `offline-control set`. -/
def actorControlSet (n : Node) (c : ControlSetArgs) : Run Unit := do
  let maddr ← Run.try_ (n.NewFromString c.maddr)
  let mi ← Run.call (.stateMinerInfo maddr EmptyTSK) (n.StateMinerInfo maddr EmptyTSK)
  let (del, existing) ← Run.try_ (controlLoop n mi.ControlAddresses ([], []))
  let (del, toSet) ← Run.try_ (desiredLoop n c.args 0 (del, []))
  Run.printAll (del.map Output.remove)
  Run.printAll ((toSet.filter fun a => !existing.has a).map Output.add)
  let cwp := Params.changeWorkerAddress mi.Worker toSet
  let sp ← Run.callWrap (.serializeParams cwp) "serializing params" (n.SerializeParams cwp)
  let owner ← Run.try_ (n.NewFromString c.owner)
  let msg : Message :=
    { To := maddr, From := owner, Nonce := 0, Value := 0, GasLimit := 0, GasFeeCap := 0,
      GasPremium := 0, Method := MethodsMiner.ChangeWorkerAddress, Params := sp }
  let nonce ← Run.call (.mpoolGetNonce owner) (n.MpoolGetNonce owner)
  let msg : Message := { msg with Nonce := nonce }
  let msg ← Run.call (.gasEstimateMessageGas msg none) (n.GasEstimateMessageGas msg none EmptyTSK)
  let key1 ← Run.try_ (n.hexDecodeString c.key)
  let ownerKey ← Run.try_ (n.jsonUnmarshal key1)
  let mb ← Run.callWrap (.toStorageBlock msg) "serializing message" (n.ToStorageBlock msg)
  let sig ← Run.call (.sign ownerKey msg) (n.Sign ownerKey mb)
  let msgsigned : SignedMessage := ⟨msg, sig⟩
  let ccid ← Run.callWrap (.mpoolPush msgsigned) "mpool push" (n.MpoolPush msgsigned)
  Run.println (.messageCid ccid)
  return ()

/-! ## `offline-control propose-change-worker` and `confirm-change-worker` -/

/-- The flags of the two worker-change commands; `reallyDoIt` is the boolean flag
`really-do-it`, false unless given. -/
structure ChangeWorkerArgs where
  maddr : String
  owner : String
  key : String
  newaddr : String
  reallyDoIt : Bool

/-- The action of `offline-control propose-change-worker`. -/
def actorProposeChangeWorker (n : Node) (c : ChangeWorkerArgs) : Run Unit := do
  let owner ← Run.try_ (n.NewFromString c.owner)
  let maddr ← Run.try_ (n.NewFromString c.maddr)
  let mi ← Run.call (.stateMinerInfo maddr EmptyTSK) (n.StateMinerInfo maddr EmptyTSK)
  let newmaddr ← Run.try_ (n.NewFromString c.newaddr)
  let newAddr ← Run.try_ (n.StateLookupID newmaddr EmptyTSK)
  if mi.NewWorker.Empty then
    if mi.Worker = newAddr then Run.fail (.workerAlreadySet maddr) else pure ()
  else
    if mi.NewWorker = newAddr then Run.fail (.changeAlreadyPending maddr) else pure ()
  if !c.reallyDoIt then
    -- return nil
    Run.println .passReallyDoIt
  else do
    Run.println (.addr owner maddr newAddr)
    -- the `return nil` of this branch is commented out in the source
    if mi.Owner ≠ owner then Run.println (.ownerMismatch mi.Owner owner) else pure ()
    let cwp := Params.changeWorkerAddress newAddr mi.ControlAddresses
    let sp ← Run.callWrap (.serializeParams cwp) "serializing params" (n.SerializeParams cwp)
    let msg : Message :=
      { To := maddr, From := owner, Nonce := 0, Value := 0, GasLimit := 0, GasFeeCap := 0,
        GasPremium := 0, Method := MethodsMiner.ChangeWorkerAddress, Params := sp }
    let nonce ← Run.call (.mpoolGetNonce owner) (n.MpoolGetNonce owner)
    let msg : Message := { msg with Nonce := nonce }
    let msg ← Run.call (.gasEstimateMessageGas msg none)
      (n.GasEstimateMessageGas msg none EmptyTSK)
    let key1 ← Run.try_ (n.hexDecodeString c.key)
    let ownerKey ← Run.try_ (n.jsonUnmarshal key1)
    let mb ← Run.callWrap (.toStorageBlock msg) "serializing message" (n.ToStorageBlock msg)
    let sig ← Run.call (.sign ownerKey msg) (n.Sign ownerKey mb)
    let msgsigned : SignedMessage := ⟨msg, sig⟩
    let smsg ← Run.callWrap (.mpoolPush msgsigned) "mpool push" (n.MpoolPush msgsigned)
    Run.println (.proposeMessageCid smsg)
    let wait ← Run.call (.stateWaitMsg smsg) (n.StateWaitMsg smsg)
    if wait.ExitCode ≠ 0 then do
      Run.println .proposeFailed
      -- `return err`: `err` is the result of StateWaitMsg, nil at this point
      Run.returnErr none
    else do
      let mi ← Run.call (.stateMinerInfo maddr wait.TipSet) (n.StateMinerInfo maddr wait.TipSet)
      if mi.NewWorker ≠ newAddr then
        Run.fail (.proposedNotReflected maddr mi.NewWorker)
      else do
        Run.println (.proposed maddr)
        Run.println (.callConfirmAt mi.WorkerChangeEpoch)
        return ()

/-- The action of `offline-control confirm-change-worker`. -/
def actorConfirmChangeWorker (n : Node) (c : ChangeWorkerArgs) : Run Unit := do
  let maddr ← Run.try_ (n.NewFromString c.maddr)
  let owner ← Run.try_ (n.NewFromString c.owner)
  let mi ← Run.call (.stateMinerInfo maddr EmptyTSK) (n.StateMinerInfo maddr EmptyTSK)
  let mnewaddr ← Run.try_ (n.NewFromString c.newaddr)
  let newAddr ← Run.try_ (n.StateLookupID mnewaddr EmptyTSK)
  if mi.NewWorker.Empty then
    Run.fail .noWorkerKeyChangeProposed
  else if mi.NewWorker ≠ newAddr then
    Run.fail (.proposalDoesNotMatch newAddr mi.NewWorker)
  else pure ()
  let head ← Run.tryWrap "failed to get the chain head" n.ChainHead
  if head.Height < mi.WorkerChangeEpoch then
    Run.fail (.cannotConfirmUntil mi.WorkerChangeEpoch head.Height)
  else pure ()
  if !c.reallyDoIt then
    -- return nil
    Run.println .passReallyDoIt
  else if mi.Owner ≠ owner then
    -- return nil
    Run.println (.ownerMismatch mi.Owner owner)
  else do
    let msg : Message :=
      { To := maddr, From := owner, Nonce := 0, Value := 0, GasLimit := 0, GasFeeCap := 0,
        GasPremium := 0, Method := MethodsMiner.ConfirmChangeWorkerAddress, Params := [] }
    let nonce ← Run.call (.mpoolGetNonce owner) (n.MpoolGetNonce owner)
    let msg : Message := { msg with Nonce := nonce }
    let msg ← Run.call (.gasEstimateMessageGas msg none)
      (n.GasEstimateMessageGas msg none EmptyTSK)
    let key1 ← Run.try_ (n.hexDecodeString c.key)
    let ownerKey ← Run.try_ (n.jsonUnmarshal key1)
    let mb ← Run.callWrap (.toStorageBlock msg) "serializing message" (n.ToStorageBlock msg)
    let sig ← Run.call (.sign ownerKey msg) (n.Sign ownerKey mb)
    let msgsigned : SignedMessage := ⟨msg, sig⟩
    let smsg ← Run.callWrap (.mpoolPush msgsigned) "mpool push" (n.MpoolPush msgsigned)
    Run.println (.confirmedMessageCid smsg)
    let wait ← Run.call (.stateWaitMsg smsg) (n.StateWaitMsg smsg)
    if wait.ExitCode ≠ 0 then do
      Run.println .workerChangeFailed
      -- `return err`: `err` is the result of StateWaitMsg, nil at this point
      Run.returnErr none
    else do
      let mi ← Run.call (.stateMinerInfo maddr wait.TipSet) (n.StateMinerInfo maddr wait.TipSet)
      if mi.Worker ≠ newAddr then
        Run.fail (.confirmedNotReflected newAddr mi.Worker)
      else
        return ()

/-! ## `offline-withdraw` (offwithdraw.go, offlineWithdrawCmd) -/

/-- Truncation of a rational towards zero. -/
def truncToZero (f : ℚ) : Int :=
  if 0 ≤ f then Rat.floor f else -Rat.floor (-f)

/-- The go conversion `int64(f)` of a `float64`: truncation towards zero when
that is in the range of `int64`, the implementation's value `outOfRange f`
otherwise. -/
def int64OfFloat (outOfRange : ℚ → Int) (f : ℚ) : Int :=
  if -2 ^ 63 ≤ truncToZero f ∧ truncToZero f < 2 ^ 63 then truncToZero f else outOfRange f

/-- The flags and arguments of `offline-withdraw`; `gasFeeCap` is the float flag
`gas-feecap`, 0 unless given. -/
structure WithdrawArgs where
  key : String
  maddr : String
  owner : String
  gasFeeCap : ℚ
  args : List String

/-- The action of `offline-withdraw`.  `FilNATO` is the `float64` value of the
package constant of that name, whose declaration is in a file of the package
that is not at hand.  The expression `gasFeeCap * FilNATO * 10` is two `float64`
products, each rounded. -/
def offlineWithdrawCmd (FilNATO : ℚ) (n : Node) (c : WithdrawArgs) : Run Unit := do
  let ver ← Run.try_ n.Version
  Run.println (.lotusVersion ver)
  let key1 ← Run.try_ (n.hexDecodeString c.key)
  let ownerKey ← Run.try_ (n.jsonUnmarshal key1)
  let maddr ← Run.try_ (n.NewFromString c.maddr)
  Run.println (.maddrIs maddr)
  let available ← Run.try_ (n.StateMinerAvailableBalance maddr EmptyTSK)
  let amount ←
    (match c.args with
    | [] => pure available
    | first :: _ => do
      let f ← Run.tryWrap "parsing 'amount' argument" (n.ParseFIL first)
      if f > available then Run.fail (.withdrawMoreThanAvailable f available) else pure f)
  let wp := Params.withdrawBalance amount
  let params ← Run.call (.serializeParams wp) (n.SerializeParams wp)
  let ownerAddr ← Run.try_ (n.NewFromString c.owner)
  Run.println (.ownerAddrIs ownerAddr)
  let nonce ← Run.call (.mpoolGetNonce ownerAddr) (n.MpoolGetNonce ownerAddr)
  Run.println (.nonceIs nonce)
  let msg : Message :=
    { To := maddr, From := ownerAddr, Nonce := nonce, Value := 0, GasLimit := 0, GasFeeCap := 0,
      GasPremium := 0, Method := MethodsMiner.WithdrawBalance, Params := params }
  let msg ← Run.call (.gasEstimateMessageGas msg none)
    (n.GasEstimateMessageGas msg none EmptyTSK)
  let msg : Message :=
    if c.gasFeeCap ≠ 0 then
      { msg with GasFeeCap :=
          int64OfFloat n.int64OutOfRange (n.mulFloat64 (n.mulFloat64 c.gasFeeCap FilNATO) 10) }
    else msg
  let mb ← Run.callWrap (.toStorageBlock msg) "serializing message" (n.ToStorageBlock msg)
  let sig ← Run.call (.sign ownerKey msg) (n.Sign ownerKey mb)
  let msgsigned : SignedMessage := ⟨msg, sig⟩
  let ccid ← Run.call (.mpoolPush msgsigned) (n.MpoolPush msgsigned)
  Run.println (.requestedWithdrawal ccid)
  return ()

/-- The parameters handed to `actors.SerializeParams` during a run, in order. -/
def serialized (t : List Event) : List Params :=
  t.filterMap fun e => match e with
    | .serializeParams p => some p
    | _ => none

/-- An event of building or submitting a message: parameter serialization, nonce
fetch, gas estimation, message serialization, signing, push. -/
def Event.isBuild : Event → Bool
  | .serializeParams _ => true
  | .mpoolGetNonce _ => true
  | .gasEstimateMessageGas _ _ => true
  | .toStorageBlock _ => true
  | .sign _ _ => true
  | .mpoolPush _ => true
  | _ => false

/-! ## `offline-replace` (offmpool.go, offlineMpoolReplaceCmd) -/

/-- The function `ComputeMinRBF` of the lotus message pool (a dependency of the
package): the premium plus `premium * 64 / 256` plus one, with the division of
`big.Int`. -/
def ComputeMinRBF (curPrem : TokenAmount) : TokenAmount :=
  curPrem + curPrem * 64 / 256 + 1

/-- The function `CapGasFee` of the lotus message pool (a dependency of the
package), called with a default-max-fee function that returns `defaultMaxFee`
without error.  The ceiling is the `MaxFee` of the send spec, or the default when
there is no spec or its `MaxFee` is zero.  When gas limit times fee cap exceeds
the ceiling, the fee cap becomes ceiling divided by gas limit; in either case the
premium is capped at the fee cap.  The gas limit is converted to `uint64`; a
division by zero is a run-time panic. -/
def CapGasFee (defaultMaxFee : TokenAmount) (msg : Message)
    (sendSpec : Option MessageSendSpec) : Run Message :=
  let maxFee : TokenAmount :=
    match sendSpec with
    | none => defaultMaxFee
    | some spec => if spec.MaxFee = 0 then defaultMaxFee else spec.MaxFee
  let gl : Int := msg.GasLimit % 2 ^ 64
  let totalFee := msg.GasFeeCap * gl
  if totalFee ≤ maxFee then
    pure { msg with GasPremium := min msg.GasFeeCap msg.GasPremium }
  else if gl = 0 then
    Run.fail (.panic "division by zero")
  else
    let feeCap := maxFee / gl
    pure { msg with GasFeeCap := feeCap, GasPremium := min feeCap msg.GasPremium }

/-- The flags and arguments of `offline-replace`.  `gasFeecap` and `gasPremium`
are string flags; `gasLimit` is an integer flag (0 unless given) and
`gasLimitIsSet` tells whether it was given; `maxFee` is the string of `max-fee`
when that flag is set. -/
structure ReplaceArgs where
  key : String
  gasFeecap : String
  gasPremium : String
  gasLimit : Int
  gasLimitIsSet : Bool
  auto : Bool
  maxFee : Option String
  args : List String

/-- Lines 63-118 of `offlineMpoolReplaceCmd`: sender and nonce are taken from the
referenced message (one argument) or parsed (two arguments); the first pending
message of that sender and nonce is looked for.  The result is `none` when the
argument count is wrong: the command help is shown and the command returns. -/
def locatePending (n : Node) (c : ReplaceArgs) : Run (Option Message) := do
  let target : Option (Address × Nat) ←
    (match c.args with
    | [a] => do
      let mcid ← Run.try_ (n.cidDecode a)
      let msg ← Run.tryWrap "could not find referenced message" (n.ChainGetMessage mcid)
      pure (some (msg.From, msg.Nonce))
    | [a, b] => do
      let f ← Run.try_ (n.NewFromString a)
      let nonce ← Run.try_ (n.ParseUint b)
      pure (some (f, nonce))
    | _ => do
      Run.println .commandHelp
      pure none)
  match target with
  | none => pure none
  | some (sender, nonce) =>
    let ts ← Run.tryWrap "getting chain head" n.ChainHead
    let pending ← Run.try_ (n.MpoolPending ts.Key)
    match pending.find? fun p => decide (p.Message.From = sender ∧ p.Message.Nonce = nonce) with
    | none => Run.fail (.noPendingMessage sender nonce)
    | some found => pure (some found.Message)

/-- Lines 121-167 of `offlineMpoolReplaceCmd`, the `auto` branch.  The float
value of the string flag `gas-feecap` is 0 when the string does not parse.  The
expression `gasFeeCap * FilNATO * 10` is two `float64` products, each rounded;
the limits `10*FilNATO` and `90*FilNATO` of the band are constant expressions,
which go evaluates exactly. -/
def repriceAuto (FilNATO : ℚ) (n : Node) (c : ReplaceArgs) (msg : Message) : Run Message := do
  let minRBF := ComputeMinRBF msg.GasPremium
  let mss : Option MessageSendSpec ←
    (match c.maxFee with
    | some str => do
      let maxFee ← Run.tryWrap "parsing max-spend" (n.BigFromString str)
      pure (some ⟨maxFee⟩)
    | none => pure none)
  let msg : Message := { msg with GasFeeCap := 0 }
  let msg : Message := { msg with GasPremium := 0 }
  let retm ← Run.callWrap (.gasEstimateMessageGas msg mss) "failed to estimate gas values"
    (n.GasEstimateMessageGas msg mss EmptyTSK)
  let msg : Message := { msg with GasPremium := max retm.GasPremium minRBF }
  let msg : Message := { msg with GasFeeCap := max retm.GasFeeCap msg.GasPremium }
  let gaslimit := c.gasLimit
  let msg : Message := if gaslimit > 0 then { msg with GasLimit := gaslimit } else msg
  let gasFeeCap : ℚ := (n.ParseFloat c.gasFeecap).getD 0
  let msg : Message ←
    (if gasFeeCap > 0 then do
      Run.println (.gasFeeCapGiven gasFeeCap)
      let gasFeeCap : ℚ ←
        (if gasFeeCap < 20 then
          pure (n.mulFloat64 (n.mulFloat64 gasFeeCap FilNATO) 10)
        else if gasFeeCap ≥ 10 * FilNATO ∧ gasFeeCap ≤ 90 * FilNATO then do
          Run.println (.changeGasFeeCap gasFeeCap)
          pure gasFeeCap
        else
          Run.fail .failedToEstimateGasValues)
      let msg : Message := { msg with GasFeeCap := int64OfFloat n.int64OutOfRange gasFeeCap }
      Run.println (.gasFeeCapFixedTo gasFeeCap)
      pure msg
    else pure msg)
  let msg ← CapGasFee n.DefaultDefaultMaxFee msg mss
  Run.println (.gasFeeCapFixed msg.Nonce msg.GasFeeCap)
  pure msg

/-- Lines 169-180 of `offlineMpoolReplaceCmd`, the branch without `auto`. -/
def repriceManual (n : Node) (c : ReplaceArgs) (msg : Message) : Run Message := do
  let msg : Message := if c.gasLimitIsSet then { msg with GasLimit := c.gasLimit } else msg
  let premium ← Run.tryWrap "parsing gas-premium" (n.BigFromString c.gasPremium)
  let msg : Message := { msg with GasPremium := premium }
  let feeCap ← Run.tryWrap "parsing gas-feecap" (n.BigFromString c.gasFeecap)
  let msg : Message := { msg with GasFeeCap := feeCap }
  pure msg

/-- The action of `offline-replace`. -/
def offlineMpoolReplaceCmd (FilNATO : ℚ) (n : Node) (c : ReplaceArgs) : Run Unit := do
  let found ← locatePending n c
  match found with
  | none => pure ()
  | some msg =>
    let msg ← (if c.auto then repriceAuto FilNATO n c msg else repriceManual n c msg)
    let key1 ← Run.try_ (n.hexDecodeString c.key)
    let ownerKey ← Run.try_ (n.jsonUnmarshal key1)
    let mb ← Run.callWrap (.toStorageBlock msg) "serializing message" (n.ToStorageBlock msg)
    let sig ← Run.call (.sign ownerKey msg) (n.Sign ownerKey mb)
    let msgsigned : SignedMessage := ⟨msg, sig⟩
    let cid ← Run.callWrap (.mpoolPush msgsigned) "failed to push new message to mempool"
      (n.MpoolPush msgsigned)
    Run.println (.newMessageCid cid)
    return ()

/-- Lines 149-161 of `offlineMpoolReplaceCmd` on their own: the handling of the
float value `gasFeeCap` of the flag `gas-feecap` inside `repriceAuto`, applied to
the message `msg` computed so far. -/
def feeCapOverride (FilNATO : ℚ) (n : Node) (gasFeeCap : ℚ) (msg : Message) : Run Message :=
  (if gasFeeCap > 0 then do
    Run.println (.gasFeeCapGiven gasFeeCap)
    let gasFeeCap : ℚ ←
      (if gasFeeCap < 20 then
        pure (n.mulFloat64 (n.mulFloat64 gasFeeCap FilNATO) 10)
      else if gasFeeCap ≥ 10 * FilNATO ∧ gasFeeCap ≤ 90 * FilNATO then do
        Run.println (.changeGasFeeCap gasFeeCap)
        pure gasFeeCap
      else
        Run.fail .failedToEstimateGasValues)
    let msg : Message := { msg with GasFeeCap := int64OfFloat n.int64OutOfRange gasFeeCap }
    Run.println (.gasFeeCapFixedTo gasFeeCap)
    pure msg
  else pure msg)

/-- The messages handed to `sigs.Sign` during a run, in order. -/
def signed (t : List Event) : List Message :=
  t.filterMap fun e => match e with
    | .sign _ m => some m
    | _ => none

/-- Two messages agree on sender, nonce, recipient, method, value and params:
only the three gas fields may differ. -/
def Message.sameExceptGas (m m0 : Message) : Prop :=
  m.From = m0.From ∧ m.Nonce = m0.Nonce ∧ m.To = m0.To ∧ m.Method = m0.Method ∧
    m.Value = m0.Value ∧ m.Params = m0.Params

/-! ## A concrete node for evaluating the commands -/

/-- A node on which every call succeeds: the short address `f0100` resolves to
the account key `f3aaa`, every other address to itself; the miner has worker
`f0200`, control addresses `f0100` and `f3bbb`, and no pending worker change.
Its `float64` product is the exact one, which is the rounded one whenever the
exact product is a `float64`; out of range, `int64(f)` is the least `int64`. -/
def demoNode : Node where
  NewFromString s := if s = "" then .error (.ext "empty address") else .ok ⟨s⟩
  StateMinerInfo _ _ := .ok ⟨⟨"f3owner"⟩, ⟨"f0200"⟩, Address.Undef, [⟨"f0100"⟩, ⟨"f3bbb"⟩], 0⟩
  StateAccountKey a _ := if a = ⟨"f0100"⟩ then .ok ⟨"f3aaa"⟩ else .ok a
  StateLookupID a _ := .ok a
  SerializeParams _ := .ok []
  MpoolGetNonce _ := .ok 7
  GasEstimateMessageGas m _ _ := .ok m
  hexDecodeString _ := .ok []
  jsonUnmarshal _ := .ok ⟨"secp256k1", []⟩
  ToStorageBlock _ := .ok 1
  Sign _ _ := .ok 2
  MpoolPush _ := .ok 3
  StateWaitMsg _ := .ok ⟨0, []⟩
  ChainHead := .ok ⟨[], 100⟩
  MpoolPending _ := .ok []
  ChainGetMessage _ := .error (.ext "not found")
  cidDecode _ := .error (.ext "bad cid")
  ParseUint _ := .ok 5
  BigFromString _ := .ok 0
  ParseFIL _ := .ok 0
  StateMinerAvailableBalance _ _ := .ok 0
  Version := .ok "1.0"
  ParseFloat _ := none
  mulFloat64 a b := a * b
  int64OutOfRange _ := -9223372036854775808
  DefaultDefaultMaxFee := 70000000000000000

/-- Arguments of `offline-control set` asking for `f3aaa`, `f3ccc`. -/
def demoControlSetArgs : ControlSetArgs := ⟨"f01000", "f3owner", "00", ["f3aaa", "f3ccc"]⟩

/-- The miner info of `demoNode` with a pending change of the worker to `f0300`
that may be confirmed from height `epoch` on. -/
def pendingInfo (epoch : Int) : MinerInfo :=
  ⟨⟨"f3owner"⟩, ⟨"f0200"⟩, ⟨"f0300"⟩, [⟨"f0100"⟩, ⟨"f3bbb"⟩], epoch⟩

/-- As `demoNode`, but the pushed message is included with exit code 1. -/
def failedReceiptNode : Node :=
  { demoNode with StateWaitMsg := fun _ => .ok ⟨1, []⟩ }

/-- As `failedReceiptNode`, with the change to `f0300` pending since height 100,
which is the height of the chain head. -/
def failedConfirmNode : Node :=
  { failedReceiptNode with StateMinerInfo := fun _ _ => .ok (pendingInfo 100) }

/-- As `demoNode` (no pending change), but the miner info reports the
activation height 200 while the chain head is at 100. -/
def noProposalNode : Node :=
  { demoNode with
    StateMinerInfo := fun _ _ => .ok ⟨⟨"f3owner"⟩, ⟨"f0200"⟩, Address.Undef, [], 200⟩ }

/-- As `demoNode`, with the change to `f0300` pending, to be confirmed from
height `epoch` on; the chain head is at 100. -/
def pendingNode (epoch : Int) : Node :=
  { demoNode with StateMinerInfo := fun _ _ => .ok (pendingInfo epoch) }

/-- Flags asking to change the worker of miner `f01000` to `newaddr`. -/
def demoChangeWorkerArgs (newaddr : String) (reallyDoIt : Bool) : ChangeWorkerArgs :=
  ⟨"f01000", "f3owner", "00", newaddr, reallyDoIt⟩

/-- Flags of `offline-withdraw` for miner `f01000` with the given amount
arguments. -/
def demoWithdrawArgs (args : List String) : WithdrawArgs := ⟨"00", "f01000", "f3owner", 0, args⟩

/-- As `demoNode`, with available balance 500 and every amount string parsed
as `requested`. -/
def balanceNode (requested : TokenAmount) : Node :=
  { demoNode with
    StateMinerAvailableBalance := fun _ _ => .ok 500
    ParseFIL := fun _ => .ok requested }

/-- A pending message of sender `f3owner` with nonce 5, gas limit 1000, fee cap
150 and premium 100. -/
def pendingMsg : SignedMessage :=
  ⟨{ To := ⟨"f01000"⟩, From := ⟨"f3owner"⟩, Nonce := 5, Value := 0, GasLimit := 1000,
     GasFeeCap := 150, GasPremium := 100, Method := 0, Params := [] }, 9⟩

/-- As `demoNode`, with `pendingMsg` in the pool, an estimator that answers fee
cap 200 and premium 100, and every `max-fee` string parsed as `maxFee`. -/
def replaceNode (maxFee : TokenAmount) : Node :=
  { demoNode with
    MpoolPending := fun _ => .ok [pendingMsg]
    GasEstimateMessageGas := fun m _ _ => .ok { m with GasFeeCap := 200, GasPremium := 100 }
    BigFromString := fun _ => .ok maxFee }

/-- Flags of `offline-replace` in auto mode for sender `f3owner`, nonce 5, with
the given `max-fee` flag and no other override. -/
def demoReplaceArgs (maxFee : Option String) : ReplaceArgs :=
  ⟨"00", "", "", 0, false, true, maxFee, ["f3owner", "5"]⟩

/-- As `replaceNode`, but the big-integer parser reads "100" as 100 and every
other string as 50. -/
def manualNode : Node :=
  { replaceNode 0 with BigFromString := fun s => if s = "100" then .ok 100 else .ok 50 }

/-- Flags of `offline-replace` without `auto` for sender `f3owner`, nonce 5, with
`gas-premium` 100 and `gas-feecap` 50. -/
def demoManualArgs : ReplaceArgs :=
  ⟨"00", "50", "100", 0, false, false, none, ["f3owner", "5"]⟩

/-- As `replaceNode`, with every `gas-feecap` string read as the float `v`. -/
def floatNode (v : ℚ) : Node :=
  { replaceNode 0 with ParseFloat := fun _ => some v }

/-- Flags of `offline-replace` in auto mode for sender `f3owner`, nonce 5, with
the given `gas-feecap` string. -/
def demoFeeCapArgs (gasFeecap : String) : ReplaceArgs :=
  ⟨"00", gasFeecap, "", 0, false, true, none, ["f3owner", "5"]⟩

/-- As `replaceNode`, but the big-integer parser rejects every string. -/
def badAmountNode : Node :=
  { replaceNode 0 with BigFromString := fun _ => .error (.ext "bad amount") }

/-- A node on which a proposed change to `f0300` takes effect: the miner info at
`EmptyTSK` has no pending change, the pushed message is included with exit code
0 in tipset `[7]`, and the miner info at that tipset has `f0300` pending. -/
def proposingNode : Node :=
  { demoNode with
    StateMinerInfo := fun _ tsk =>
      if tsk = [] then .ok ⟨⟨"f3owner"⟩, ⟨"f0200"⟩, Address.Undef, [⟨"f0100"⟩, ⟨"f3bbb"⟩], 0⟩
      else .ok (pendingInfo 150)
    StateWaitMsg := fun _ => .ok ⟨0, [7]⟩ }

/-- A node on which the confirmation of the pending change to `f0300` takes
effect: the miner info at `EmptyTSK` is `pendingInfo 100`, the chain head is at
100, the pushed message is included with exit code 0 in tipset `[7]`, and the
miner info at that tipset has worker `f0300`. -/
def confirmingNode : Node :=
  { demoNode with
    StateMinerInfo := fun _ tsk =>
      if tsk = [] then .ok (pendingInfo 100)
      else .ok ⟨⟨"f3owner"⟩, ⟨"f0300"⟩, Address.Undef, [⟨"f0100"⟩, ⟨"f3bbb"⟩], 0⟩
    StateWaitMsg := fun _ => .ok ⟨0, [7]⟩ }

/-- Flags asking, with `really-do-it`, to change the worker of miner `f01000` to
`newaddr` in the name of `f3other`, which is not the owner on `demoNode`. -/
def otherOwnerArgs (newaddr : String) : ChangeWorkerArgs :=
  ⟨"f01000", "f3other", "00", newaddr, true⟩

/-- The `float64` nearest to 0.3. -/
def float03 : ℚ := 5404319552844595 / 18014398509481984

/-- As `replaceNode`, with the `float64` value `float03` for every `gas-feecap`
string and the `float64` product of `float03` and 100000000 as the platform
rounds it: the exact product 29999999.99999999889 lies between two `float64`
values and is rounded to 30000000.  All other products used are exact. -/
def roundingNode : Node :=
  { replaceNode 0 with
    ParseFloat := fun _ => some float03
    mulFloat64 := fun a b => if a = float03 ∧ b = 100000000 then 30000000 else a * b }

/-! ## Facts about runs and traces -/

theorem Run.bind_def {α β : Type} (x : Run α) (f : α → Run β) :
    x >>= f = Run.andThen x f := rfl

theorem Run.pure_def {α : Type} (a : α) : (pure a : Run α) = Run.ret a := rfl

theorem Run.andThen_ok {α β : Type} (t : List Event) (a : α) (f : α → Run β) :
    Run.andThen ⟨t, .ok a⟩ f = ⟨t ++ (f a).trace, (f a).res⟩ := rfl

theorem Run.andThen_error {α β : Type} (t : List Event) (e : Err) (f : α → Run β) :
    Run.andThen (⟨t, .error e⟩ : Run α) f = ⟨t, .error e⟩ := rfl

theorem Run.andThen_trace {α β : Type} (x : Run α) (f : α → Run β) :
    (Run.andThen x f).trace =
      x.trace ++ (match x.res with | .ok a => (f a).trace | .error _ => []) := by
  unfold Run.andThen
  cases x.res <;> simp

theorem Run.andThen_res {α β : Type} (x : Run α) (f : α → Run β) :
    (Run.andThen x f).res =
      (match x.res with | .ok a => (f a).res | .error e => .error e) := by
  unfold Run.andThen
  cases x.res <;> simp

theorem removed_append (s t : List Event) : removed (s ++ t) = removed s ++ removed t := by
  simp [removed, List.filterMap_append]

theorem added_append (s t : List Event) : added (s ++ t) = added s ++ added t := by
  simp [added, List.filterMap_append]

theorem pushes_append (s t : List Event) : pushes (s ++ t) = pushes s ++ pushes t := by
  simp [pushes, List.filterMap_append]

theorem removed_map_remove (l : List Address) :
    removed ((l.map Output.remove).map Event.out) = l := by
  induction l with
  | nil => rfl
  | cons a l ih => simpa [removed] using ih

theorem added_map_remove (l : List Address) :
    added ((l.map Output.remove).map Event.out) = [] := by
  induction l with
  | nil => rfl
  | cons a l ih => simp [added]

theorem added_map_add (l : List Address) :
    added ((l.map Output.add).map Event.out) = l := by
  induction l with
  | nil => rfl
  | cons a l ih => simpa [added] using ih

theorem removed_map_add (l : List Address) :
    removed ((l.map Output.add).map Event.out) = [] := by
  induction l with
  | nil => rfl
  | cons a l ih => simp [removed]

/-! ## Facts about the two loops of `actorControlSet` -/

theorem AddrSet.mem_put (m : AddrSet) (a b : Address) :
    b ∈ AddrSet.put m a ↔ b ∈ m ∨ b = a := by
  unfold AddrSet.put
  by_cases h : a ∈ m
  · simp only [h, if_true]
    constructor
    · exact Or.inl
    · rintro (hb | rfl)
      · exact hb
      · exact h
  · simp [h]

theorem AddrSet.mem_delete (m : AddrSet) (a b : Address) :
    b ∈ AddrSet.delete m a ↔ b ∈ m ∧ b ≠ a := by
  simp [AddrSet.delete]

theorem controlLoop_ok (n : Node) (key : Address → Address) (cs : List Address) :
    ∀ (del existing : AddrSet),
      (∀ c ∈ cs, n.StateAccountKey c EmptyTSK = .ok (key c)) →
      ∃ del1 existing1, controlLoop n cs (del, existing) = .ok (del1, existing1) ∧
        (∀ a, a ∈ del1 ↔ a ∈ del ∨ a ∈ cs.map key) ∧
        (∀ a, a ∈ existing1 ↔ a ∈ existing ∨ a ∈ cs.map key) := by
  induction cs with
  | nil =>
    intro del existing _
    exact ⟨del, existing, rfl, by simp, by simp⟩
  | cons c cs ih =>
    intro del existing h
    have hc : n.StateAccountKey c EmptyTSK = .ok (key c) := h c (List.mem_cons_self _ _)
    obtain ⟨d1, e1, hrun, hd, he⟩ :=
      ih (del.put (key c)) (existing.put (key c)) (fun x hx => h x (List.mem_cons_of_mem _ hx))
    refine ⟨d1, e1, ?_, ?_, ?_⟩
    · simp only [controlLoop, hc]
      exact hrun
    · intro a
      rw [hd a, AddrSet.mem_put]
      simp only [List.map_cons, List.mem_cons]
      tauto
    · intro a
      rw [he a, AddrSet.mem_put]
      simp only [List.map_cons, List.mem_cons]
      tauto

theorem desiredLoop_ok (n : Node) (parsed key : String → Address) (args : List String) :
    ∀ (i : Nat) (del : AddrSet) (toSet : List Address),
      (∀ s ∈ args, n.NewFromString s = .ok (parsed s) ∧
        n.StateAccountKey (parsed s) EmptyTSK = .ok (key s) ∧
        ∃ id, n.StateLookupID (key s) EmptyTSK = .ok id) →
      ∃ del1, desiredLoop n args i (del, toSet) = .ok (del1, toSet ++ args.map key) ∧
        (∀ a, a ∈ del1 ↔ a ∈ del ∧ a ∉ args.map key) := by
  induction args with
  | nil =>
    intro i del toSet _
    exact ⟨del, by simp [desiredLoop], by simp⟩
  | cons s args ih =>
    intro i del toSet h
    obtain ⟨hp, hk, id, hid⟩ := h s (List.mem_cons_self _ _)
    obtain ⟨d1, hrun, hd⟩ :=
      ih (i + 1) (del.delete (key s)) (toSet ++ [key s])
        (fun x hx => h x (List.mem_cons_of_mem _ hx))
    refine ⟨d1, ?_, ?_⟩
    · simp only [desiredLoop, hp, hk, hid]
      rw [hrun]
      simp
    · intro a
      rw [hd a, AddrSet.mem_delete]
      simp only [List.map_cons, List.mem_cons]
      tauto

/-! ## Properties of `offline-control set` -/

theorem actorControlSet_trace (n : Node) (c : ControlSetArgs) (maddr : Address) (mi : MinerInfo)
    (del existing del1 : AddrSet) (toSet : List Address)
    (hm : n.NewFromString c.maddr = .ok maddr)
    (hmi : n.StateMinerInfo maddr EmptyTSK = .ok mi)
    (h1 : controlLoop n mi.ControlAddresses ([], []) = .ok (del, existing))
    (h2 : desiredLoop n c.args 0 (del, []) = .ok (del1, toSet)) :
    removed (actorControlSet n c).trace = del1 ∧
    added (actorControlSet n c).trace = toSet.filter fun a => !existing.has a := by
  unfold actorControlSet
  simp only [Run.bind_def, Run.pure_def, hm, hmi, h1, h2, Run.try_, Run.call, Run.andThen_ok,
    Run.printAll, Run.andThen_trace, removed_append, added_append, removed_map_remove,
    added_map_remove, added_map_add, removed_map_add]
  constructor <;> (repeat' split) <;>
    simp [removed, added, Run.callWrap, Run.println, Run.emit, Run.ret]

/-- C1: in `actorControlSet`, once the miner info is fetched and every current
control address `x` resolves to `ckey x` and every desired argument `s` parses,
resolves to `key s` and is found on chain, an address is printed as "Remove" if
and only if it is among the resolved current control addresses and not among
the resolved desired addresses. -/
theorem actorControlSet_remove_iff (n : Node) (c : ControlSetArgs) (maddr : Address)
    (mi : MinerInfo) (ckey : Address → Address) (parsed key : String → Address)
    (hm : n.NewFromString c.maddr = .ok maddr)
    (hmi : n.StateMinerInfo maddr EmptyTSK = .ok mi)
    (hC : ∀ x ∈ mi.ControlAddresses, n.StateAccountKey x EmptyTSK = .ok (ckey x))
    (hD : ∀ s ∈ c.args, n.NewFromString s = .ok (parsed s) ∧
      n.StateAccountKey (parsed s) EmptyTSK = .ok (key s) ∧
      ∃ id, n.StateLookupID (key s) EmptyTSK = .ok id)
    (a : Address) :
    a ∈ removed (actorControlSet n c).trace ↔
      a ∈ mi.ControlAddresses.map ckey ∧ a ∉ c.args.map key := by
  obtain ⟨del, existing, h1, hdel, _⟩ := controlLoop_ok n ckey mi.ControlAddresses [] [] hC
  obtain ⟨del1, h2, hdel1⟩ := desiredLoop_ok n parsed key c.args 0 del [] hD
  rw [List.nil_append] at h2
  rw [(actorControlSet_trace n c maddr mi del existing del1 _ hm hmi h1 h2).1, hdel1 a, hdel a]
  simp

/-- Witness for C1 on `demoNode`: `f3bbb` is registered and not desired. -/
theorem actorControlSet_remove_iff_witness :
    (⟨"f3bbb"⟩ : Address) ∈ removed (actorControlSet demoNode demoControlSetArgs).trace ↔
      (⟨"f3bbb"⟩ : Address) ∈
          ([⟨"f0100"⟩, ⟨"f3bbb"⟩] : List Address).map
            (fun x => if x = ⟨"f0100"⟩ then ⟨"f3aaa"⟩ else x) ∧
        (⟨"f3bbb"⟩ : Address) ∉ (["f3aaa", "f3ccc"] : List String).map Address.mk :=
  actorControlSet_remove_iff demoNode demoControlSetArgs ⟨"f01000"⟩
    ⟨⟨"f3owner"⟩, ⟨"f0200"⟩, Address.Undef, [⟨"f0100"⟩, ⟨"f3bbb"⟩], 0⟩
    (fun x => if x = ⟨"f0100"⟩ then ⟨"f3aaa"⟩ else x) Address.mk Address.mk
    (by simp [demoNode, demoControlSetArgs]) rfl
    (by intro x _; simp only [demoNode]; split <;> rfl)
    (by simp [demoNode, demoControlSetArgs]) ⟨"f3bbb"⟩

/-- C2: in `actorControlSet`, under the same resolution, the sequence of
addresses printed as "Add" is the resolved desired list, in input order,
filtered to the addresses that are not among the resolved current control
addresses. -/
theorem actorControlSet_add_eq (n : Node) (c : ControlSetArgs) (maddr : Address)
    (mi : MinerInfo) (ckey : Address → Address) (parsed key : String → Address)
    (hm : n.NewFromString c.maddr = .ok maddr)
    (hmi : n.StateMinerInfo maddr EmptyTSK = .ok mi)
    (hC : ∀ x ∈ mi.ControlAddresses, n.StateAccountKey x EmptyTSK = .ok (ckey x))
    (hD : ∀ s ∈ c.args, n.NewFromString s = .ok (parsed s) ∧
      n.StateAccountKey (parsed s) EmptyTSK = .ok (key s) ∧
      ∃ id, n.StateLookupID (key s) EmptyTSK = .ok id) :
    added (actorControlSet n c).trace =
      (c.args.map key).filter fun a => decide (a ∉ mi.ControlAddresses.map ckey) := by
  obtain ⟨del, existing, h1, _, hex⟩ := controlLoop_ok n ckey mi.ControlAddresses [] [] hC
  obtain ⟨del1, h2, _⟩ := desiredLoop_ok n parsed key c.args 0 del [] hD
  rw [List.nil_append] at h2
  rw [(actorControlSet_trace n c maddr mi del existing del1 _ hm hmi h1 h2).2]
  apply List.filter_congr
  intro a _
  have := hex a
  simp only [List.not_mem_nil, false_or] at this
  rw [Bool.eq_iff_iff]
  simp only [AddrSet.has, Bool.not_eq_true', decide_eq_false_iff_not, decide_eq_true_eq]
  rw [this]

/-- Witness for C2 on `demoNode`: of the desired `f3aaa`, `f3ccc` only `f3ccc` is
added, `f3aaa` being the resolved form of the registered `f0100`. -/
theorem actorControlSet_add_eq_witness :
    added (actorControlSet demoNode demoControlSetArgs).trace =
      ((["f3aaa", "f3ccc"] : List String).map Address.mk).filter fun a =>
        decide (a ∉ ([⟨"f0100"⟩, ⟨"f3bbb"⟩] : List Address).map
          (fun x => if x = ⟨"f0100"⟩ then ⟨"f3aaa"⟩ else x)) :=
  actorControlSet_add_eq demoNode demoControlSetArgs ⟨"f01000"⟩
    ⟨⟨"f3owner"⟩, ⟨"f0200"⟩, Address.Undef, [⟨"f0100"⟩, ⟨"f3bbb"⟩], 0⟩
    (fun x => if x = ⟨"f0100"⟩ then ⟨"f3aaa"⟩ else x) Address.mk Address.mk
    (by simp [demoNode, demoControlSetArgs]) rfl
    (by intro x _; simp only [demoNode]; split <;> rfl)
    (by simp [demoNode, demoControlSetArgs])

/-! ## Properties of the worker-change commands -/

theorem pushes_bind_nil {α β : Type} (x : Run α) (f : α → Run β)
    (hx : pushes x.trace = []) (hf : ∀ a, pushes (f a).trace = []) :
    pushes (x >>= f).trace = [] := by
  rw [Run.bind_def, Run.andThen_trace, pushes_append, hx]
  cases x.res with
  | error e => rfl
  | ok a => exact hf a

/-- C9: without the `really-do-it` flag neither worker-change command hands
anything to `MpoolPush`, whatever the node answers and whatever the other
inputs are. -/
theorem changeWorker_dryRun_never_pushes (n : Node) (maddr owner key newaddr : String) :
    pushes (actorProposeChangeWorker n ⟨maddr, owner, key, newaddr, false⟩).trace = [] ∧
    pushes (actorConfirmChangeWorker n ⟨maddr, owner, key, newaddr, false⟩).trace = [] := by
  constructor
  · unfold actorProposeChangeWorker
    simp only [Bool.not_false, if_true]
    repeat' first
      | apply pushes_bind_nil
      | intro _
      | split
      | rfl
  · unfold actorConfirmChangeWorker
    simp only [Bool.not_false, if_true]
    repeat' first
      | apply pushes_bind_nil
      | intro _
      | split
      | rfl

/-- C5: on a node that includes the pushed message with exit code 1, both
worker-change commands push a message, print their failure line and return
success (`return err` with a nil `err`) instead of an error. -/
theorem changeWorker_failed_receipt_returns_ok :
    (actorProposeChangeWorker failedReceiptNode (demoChangeWorkerArgs "f0300" true)).res = .ok () ∧
    Event.out .proposeFailed ∈
      (actorProposeChangeWorker failedReceiptNode (demoChangeWorkerArgs "f0300" true)).trace ∧
    (actorConfirmChangeWorker failedConfirmNode (demoChangeWorkerArgs "f0300" true)).res = .ok () ∧
    Event.out .workerChangeFailed ∈
      (actorConfirmChangeWorker failedConfirmNode (demoChangeWorkerArgs "f0300" true)).trace := by
  refine ⟨rfl, ?_, rfl, ?_⟩ <;> decide

/-- C7: in `actorConfirmChangeWorker`, once the addresses are parsed, the miner
info fetched and the new address resolved, an empty `NewWorker` makes the command
return "no worker key change proposed", and a non-empty `NewWorker` different
from the resolved address makes it return the mismatch error; in both cases
nothing is handed to `MpoolPush`, whatever the chain head, owner, key and
`really-do-it` flag are. -/
theorem confirm_requires_matching_proposal (n : Node) (c : ChangeWorkerArgs)
    (maddr owner mnewaddr newAddr : Address) (mi : MinerInfo)
    (hm : n.NewFromString c.maddr = .ok maddr)
    (ho : n.NewFromString c.owner = .ok owner)
    (hmi : n.StateMinerInfo maddr EmptyTSK = .ok mi)
    (hn : n.NewFromString c.newaddr = .ok mnewaddr)
    (hl : n.StateLookupID mnewaddr EmptyTSK = .ok newAddr) :
    (mi.NewWorker.Empty = true →
      (actorConfirmChangeWorker n c).res = .error .noWorkerKeyChangeProposed ∧
      pushes (actorConfirmChangeWorker n c).trace = []) ∧
    (mi.NewWorker.Empty = false → mi.NewWorker ≠ newAddr →
      (actorConfirmChangeWorker n c).res = .error (.proposalDoesNotMatch newAddr mi.NewWorker) ∧
      pushes (actorConfirmChangeWorker n c).trace = []) := by
  unfold actorConfirmChangeWorker
  simp only [Run.bind_def, hm, ho, hmi, hn, hl, Run.try_, Run.call, Run.andThen_ok]
  constructor
  · intro h
    simp only [h, if_true, Run.fail, Run.andThen_error]
    exact ⟨trivial, rfl⟩
  · intro h hne
    simp only [h, hne, if_true, if_false, Bool.false_eq_true, ne_eq, not_false_eq_true,
      Run.fail, Run.andThen_error]
    exact ⟨trivial, rfl⟩

/-- Witness for C7: no pending change on `noProposalNode`; on `pendingNode` the
pending `f0300` differs from the requested `f0400`. -/
theorem confirm_requires_matching_proposal_witness :
    (actorConfirmChangeWorker noProposalNode (demoChangeWorkerArgs "f0300" true)).res
      = .error .noWorkerKeyChangeProposed ∧
    (actorConfirmChangeWorker (pendingNode 0) (demoChangeWorkerArgs "f0400" true)).res
      = .error (.proposalDoesNotMatch ⟨"f0400"⟩ ⟨"f0300"⟩) :=
  ⟨((confirm_requires_matching_proposal noProposalNode (demoChangeWorkerArgs "f0300" true)
      ⟨"f01000"⟩ ⟨"f3owner"⟩ ⟨"f0300"⟩ ⟨"f0300"⟩
      ⟨⟨"f3owner"⟩, ⟨"f0200"⟩, Address.Undef, [], 200⟩ rfl rfl rfl rfl rfl).1 rfl).1,
   ((confirm_requires_matching_proposal (pendingNode 0) (demoChangeWorkerArgs "f0400" true)
      ⟨"f01000"⟩ ⟨"f3owner"⟩ ⟨"f0400"⟩ ⟨"f0400"⟩ (pendingInfo 0) rfl rfl rfl rfl rfl).2
      rfl (by decide)).1⟩

/-- C6, as stated, fails: with the chain head at 100 below the activation height
200 but no pending change in the actor state, `actorConfirmChangeWorker` returns
"no worker key change proposed", not the height error. -/
theorem confirm_too_early_counterexample :
    (100 : Int) < 200 ∧
    (actorConfirmChangeWorker noProposalNode (demoChangeWorkerArgs "f0300" true)).res
      = .error .noWorkerKeyChangeProposed ∧
    (actorConfirmChangeWorker noProposalNode (demoChangeWorkerArgs "f0300" true)).res
      ≠ .error (.cannotConfirmUntil 200 100) := by
  refine ⟨by decide, rfl, ?_⟩
  intro h
  have h2 : (Except.error Err.noWorkerKeyChangeProposed : Except Err Unit)
      = .error (.cannotConfirmUntil 200 100) := h
  cases h2

/-- C6, amended: in `actorConfirmChangeWorker`, once the addresses are parsed,
the miner info fetched, the new address resolved and the chain head obtained, a
head height below `WorkerChangeEpoch` makes the command return an error and
push nothing for every actor state; the error is the one reporting the required
and the current height when the actor state has a pending change equal to the
resolved address; and at a head height equal to `WorkerChangeEpoch` the gate is
passed: the dry run returns success and the real run goes on to fetch the
nonce. -/
theorem confirm_height_gate (n : Node) (c : ChangeWorkerArgs)
    (maddr owner mnewaddr newAddr : Address) (mi : MinerInfo) (head : TipSet)
    (hm : n.NewFromString c.maddr = .ok maddr)
    (ho : n.NewFromString c.owner = .ok owner)
    (hmi : n.StateMinerInfo maddr EmptyTSK = .ok mi)
    (hn : n.NewFromString c.newaddr = .ok mnewaddr)
    (hl : n.StateLookupID mnewaddr EmptyTSK = .ok newAddr)
    (hh : n.ChainHead = .ok head) :
    (head.Height < mi.WorkerChangeEpoch →
      (∃ e, (actorConfirmChangeWorker n c).res = .error e) ∧
      pushes (actorConfirmChangeWorker n c).trace = []) ∧
    (head.Height < mi.WorkerChangeEpoch → mi.NewWorker.Empty = false → mi.NewWorker = newAddr →
      (actorConfirmChangeWorker n c).res =
        .error (.cannotConfirmUntil mi.WorkerChangeEpoch head.Height)) ∧
    (head.Height = mi.WorkerChangeEpoch → mi.NewWorker.Empty = false → mi.NewWorker = newAddr →
      (c.reallyDoIt = false → (actorConfirmChangeWorker n c).res = .ok ()) ∧
      (c.reallyDoIt = true → mi.Owner = owner →
        Event.mpoolGetNonce owner ∈ (actorConfirmChangeWorker n c).trace)) := by
  unfold actorConfirmChangeWorker
  simp only [Run.bind_def, hm, ho, hmi, hn, hl, hh, Run.try_, Run.tryWrap, Run.wrapErr, Run.call,
    Run.andThen_ok]
  refine ⟨?_, ?_, ?_⟩
  · intro hlt
    cases hE : mi.NewWorker.Empty
    · by_cases hne : mi.NewWorker = newAddr
      · subst hne
        simp only [hlt, if_true, if_false, Bool.false_eq_true, ne_eq, not_true_eq_false,
          Run.pure_def, Run.ret, Run.fail, Run.andThen_ok, Run.andThen_error]
        exact ⟨⟨_, rfl⟩, rfl⟩
      · simp only [hne, if_true, if_false, Bool.false_eq_true, ne_eq, not_false_eq_true,
          Run.fail, Run.andThen_error]
        exact ⟨⟨_, rfl⟩, rfl⟩
    · simp only [if_true, Run.fail, Run.andThen_error]
      exact ⟨⟨_, rfl⟩, rfl⟩
  · intro hlt hE hne
    subst hne
    simp only [hE, hlt, if_true, if_false, Bool.false_eq_true, ne_eq, not_true_eq_false,
      Run.pure_def, Run.ret, Run.fail, Run.andThen_ok, Run.andThen_error]
  · intro heq hE hne
    subst hne
    have hnlt : ¬ head.Height < mi.WorkerChangeEpoch := by omega
    simp only [hE, hnlt, if_true, if_false, Bool.false_eq_true, ne_eq, not_true_eq_false,
      Run.pure_def, Run.ret, Run.fail, Run.andThen_ok, Run.andThen_error]
    constructor
    · intro hr
      simp only [hr, Bool.not_false, if_true, Run.println, Run.emit]
    · intro hr ho
      simp only [hr, ho, Bool.not_true, Bool.false_eq_true, if_false, not_true_eq_false,
        Run.andThen_trace]
      simp

/-- Witness for C6 amended: with the change to `f0300` pending and the head at
100, activation height 200 gives the height error, activation height 100 lets
the dry run succeed. -/
theorem confirm_height_gate_witness :
    (actorConfirmChangeWorker (pendingNode 200) (demoChangeWorkerArgs "f0300" true)).res
      = .error (.cannotConfirmUntil 200 100) ∧
    (actorConfirmChangeWorker (pendingNode 100) (demoChangeWorkerArgs "f0300" false)).res
      = .ok () :=
  ⟨(confirm_height_gate (pendingNode 200) (demoChangeWorkerArgs "f0300" true)
      ⟨"f01000"⟩ ⟨"f3owner"⟩ ⟨"f0300"⟩ ⟨"f0300"⟩ (pendingInfo 200) ⟨[], 100⟩
      rfl rfl rfl rfl rfl rfl).2.1 (by decide) rfl rfl,
   ((confirm_height_gate (pendingNode 100) (demoChangeWorkerArgs "f0300" false)
      ⟨"f01000"⟩ ⟨"f3owner"⟩ ⟨"f0300"⟩ ⟨"f0300"⟩ (pendingInfo 100) ⟨[], 100⟩
      rfl rfl rfl rfl rfl rfl).2.2 rfl rfl rfl).1 rfl⟩

/-- C8, as stated, fails: with a change to `f0300` pending, proposing the
current worker `f0200` passes the precondition check and, with `really-do-it`,
a propose message is pushed. -/
theorem propose_current_worker_counterexample :
    (pendingInfo 0).Worker = ⟨"f0200"⟩ ∧
    pushes (actorProposeChangeWorker (pendingNode 0) (demoChangeWorkerArgs "f0200" true)).trace
      ≠ [] := by
  decide

/-- C8, amended: in `actorProposeChangeWorker`, once the addresses are parsed,
the miner info fetched and the new address resolved, the command returns
"worker address already set" when no change is pending and the resolved address
is the current worker, and "already pending" when a change is pending and the
resolved address equals it, in both cases without pushing; so a message is
pushed only if the resolved address differs from the current worker when no
change is pending, and from the pending one otherwise. -/
theorem propose_precondition (n : Node) (c : ChangeWorkerArgs)
    (owner maddr newmaddr newAddr : Address) (mi : MinerInfo)
    (ho : n.NewFromString c.owner = .ok owner)
    (hm : n.NewFromString c.maddr = .ok maddr)
    (hmi : n.StateMinerInfo maddr EmptyTSK = .ok mi)
    (hn : n.NewFromString c.newaddr = .ok newmaddr)
    (hl : n.StateLookupID newmaddr EmptyTSK = .ok newAddr) :
    (mi.NewWorker.Empty = true → mi.Worker = newAddr →
      (actorProposeChangeWorker n c).res = .error (.workerAlreadySet maddr) ∧
      pushes (actorProposeChangeWorker n c).trace = []) ∧
    (mi.NewWorker.Empty = false → mi.NewWorker = newAddr →
      (actorProposeChangeWorker n c).res = .error (.changeAlreadyPending maddr) ∧
      pushes (actorProposeChangeWorker n c).trace = []) ∧
    (pushes (actorProposeChangeWorker n c).trace ≠ [] →
      (mi.NewWorker.Empty = true → mi.Worker ≠ newAddr) ∧
      (mi.NewWorker.Empty = false → mi.NewWorker ≠ newAddr)) := by
  have h1 : mi.NewWorker.Empty = true → mi.Worker = newAddr →
      (actorProposeChangeWorker n c).res = .error (.workerAlreadySet maddr) ∧
      pushes (actorProposeChangeWorker n c).trace = [] := by
    intro hE hw
    unfold actorProposeChangeWorker
    simp only [Run.bind_def, hm, ho, hmi, hn, hl, Run.try_, Run.call, Run.andThen_ok,
      hE, hw, if_true, Run.fail, Run.andThen_error]
    exact ⟨trivial, rfl⟩
  have h2 : mi.NewWorker.Empty = false → mi.NewWorker = newAddr →
      (actorProposeChangeWorker n c).res = .error (.changeAlreadyPending maddr) ∧
      pushes (actorProposeChangeWorker n c).trace = [] := by
    intro hE hw
    subst hw
    unfold actorProposeChangeWorker
    simp only [Run.bind_def, hm, ho, hmi, hn, hl, Run.try_, Run.call, Run.andThen_ok,
      hE, if_true, if_false, Bool.false_eq_true, Run.fail, Run.andThen_error]
    exact ⟨trivial, rfl⟩
  refine ⟨h1, h2, fun hp => ⟨fun hE hw => hp (h1 hE hw).2, fun hE hw => hp (h2 hE hw).2⟩⟩

/-- Witness for C8 amended: on `demoNode` (worker `f0200`, nothing pending)
proposing `f0200` is refused; on `pendingNode` proposing the pending `f0300` is
refused. -/
theorem propose_precondition_witness :
    (actorProposeChangeWorker demoNode (demoChangeWorkerArgs "f0200" true)).res
      = .error (.workerAlreadySet ⟨"f01000"⟩) ∧
    (actorProposeChangeWorker (pendingNode 0) (demoChangeWorkerArgs "f0300" true)).res
      = .error (.changeAlreadyPending ⟨"f01000"⟩) :=
  ⟨((propose_precondition demoNode (demoChangeWorkerArgs "f0200" true)
      ⟨"f3owner"⟩ ⟨"f01000"⟩ ⟨"f0200"⟩ ⟨"f0200"⟩
      ⟨⟨"f3owner"⟩, ⟨"f0200"⟩, Address.Undef, [⟨"f0100"⟩, ⟨"f3bbb"⟩], 0⟩
      rfl rfl rfl rfl rfl).1 rfl rfl).1,
   ((propose_precondition (pendingNode 0) (demoChangeWorkerArgs "f0300" true)
      ⟨"f3owner"⟩ ⟨"f01000"⟩ ⟨"f0300"⟩ ⟨"f0300"⟩ (pendingInfo 0)
      rfl rfl rfl rfl rfl).2.1 rfl rfl).1⟩

/-! ## Properties of `offline-withdraw` -/

theorem serialized_append (s t : List Event) :
    serialized (s ++ t) = serialized s ++ serialized t := by
  simp [serialized, List.filterMap_append]

/-- C10: in `offlineWithdrawCmd`, once the version, key, miner address and
available balance `A` are obtained: a parsed amount argument `R` with `R > A`
makes the command return the "can't withdraw more funds than available" error
with no parameter serialization, nonce fetch, gas estimation, message
serialization, signing or push in its trace; with `R ≤ A` the one parameter
record serialized requests exactly `R`; and without an amount argument it
requests exactly `A`. -/
theorem withdraw_amount_check (FilNATO : ℚ) (n : Node) (c : WithdrawArgs)
    (ver : String) (key1 : Bytes) (ownerKey : KeyInfo) (maddr : Address) (A : TokenAmount)
    (hv : n.Version = .ok ver) (hk : n.hexDecodeString c.key = .ok key1)
    (hj : n.jsonUnmarshal key1 = .ok ownerKey) (hm : n.NewFromString c.maddr = .ok maddr)
    (ha : n.StateMinerAvailableBalance maddr EmptyTSK = .ok A) :
    (∀ first rest R, c.args = first :: rest → n.ParseFIL first = .ok R →
      (A < R →
        (offlineWithdrawCmd FilNATO n c).res = .error (.withdrawMoreThanAvailable R A) ∧
        ∀ e ∈ (offlineWithdrawCmd FilNATO n c).trace, e.isBuild = false) ∧
      (R ≤ A →
        serialized (offlineWithdrawCmd FilNATO n c).trace = [.withdrawBalance R])) ∧
    (c.args = [] →
      serialized (offlineWithdrawCmd FilNATO n c).trace = [.withdrawBalance A]) := by
  unfold offlineWithdrawCmd
  simp only [Run.bind_def, Run.pure_def, hv, hk, hj, hm, ha, Run.try_, Run.println, Run.emit,
    Run.andThen_ok]
  refine ⟨?_, ?_⟩
  · intro first rest R hargs hp
    constructor
    · intro hlt
      have hgt : R > A := hlt
      simp only [hargs, hp, Run.tryWrap, Run.wrapErr, Run.andThen_ok, hgt, if_true, Run.fail,
        Run.andThen_error]
      refine ⟨trivial, ?_⟩
      intro e he
      simp at he
      rcases he with rfl | rfl <;> rfl
    · intro hle
      have hgt : ¬ R > A := not_lt.mpr hle
      simp only [hargs, hp, Run.tryWrap, Run.wrapErr, Run.andThen_ok, hgt, if_false, Run.ret,
        Run.call, Run.andThen_trace, serialized_append]
      repeat' split
      all_goals simp [serialized, Run.callWrap]
  · intro hargs
    simp only [hargs, Run.ret, Run.andThen_ok, Run.call, Run.andThen_trace, serialized_append]
    repeat' split
    all_goals simp [serialized, Run.callWrap]

/-! ## Properties of `offline-replace` -/

theorem signed_append (s t : List Event) : signed (s ++ t) = signed s ++ signed t := by
  simp [signed, List.filterMap_append]

theorem signed_bind_nil {α β : Type} (x : Run α) (f : α → Run β)
    (hx : signed x.trace = []) (hf : ∀ a, signed (f a).trace = []) :
    signed (x >>= f).trace = [] := by
  rw [Run.bind_def, Run.andThen_trace, signed_append, hx]
  cases x.res with
  | error e => rfl
  | ok a => exact hf a

theorem Run.bind_res_ok {α β : Type} (x : Run α) (f : α → Run β) (b : β)
    (h : (x >>= f).res = .ok b) : ∃ a, x.res = .ok a ∧ (f a).res = .ok b := by
  rw [Run.bind_def, Run.andThen_res] at h
  cases hx : x.res with
  | error e => rw [hx] at h; cases h
  | ok a => rw [hx] at h; exact ⟨a, rfl, h⟩

theorem mem_signed_bind {α β : Type} (x : Run α) (f : α → Run β) (m : Message)
    (h : m ∈ signed (x >>= f).trace) :
    m ∈ signed x.trace ∨ ∃ a, x.res = .ok a ∧ m ∈ signed (f a).trace := by
  rw [Run.bind_def, Run.andThen_trace, signed_append, List.mem_append] at h
  rcases h with h | h
  · exact Or.inl h
  · cases hx : x.res with
    | error e => rw [hx] at h; cases h
    | ok a => rw [hx] at h; exact Or.inr ⟨a, rfl, h⟩

theorem CapGasFee_signed (d : TokenAmount) (msg : Message) (spec : Option MessageSendSpec) :
    signed (CapGasFee d msg spec).trace = [] := by
  unfold CapGasFee
  repeat' first
    | split
    | rfl
    | dsimp only

theorem locatePending_signed (n : Node) (c : ReplaceArgs) :
    signed (locatePending n c).trace = [] := by
  unfold locatePending
  repeat' first
    | apply signed_bind_nil
    | intro _
    | split
    | rfl

theorem repriceAuto_signed (FilNATO : ℚ) (n : Node) (c : ReplaceArgs) (msg : Message) :
    signed (repriceAuto FilNATO n c msg).trace = [] := by
  unfold repriceAuto
  repeat' first
    | apply signed_bind_nil
    | apply CapGasFee_signed
    | intro _
    | split
    | rfl

theorem repriceManual_signed (n : Node) (c : ReplaceArgs) (msg : Message) :
    signed (repriceManual n c msg).trace = [] := by
  unfold repriceManual
  repeat' first
    | apply signed_bind_nil
    | intro _
    | split
    | rfl

/-- Every message handed to the signer by `offline-replace` is the result of the
repricing branch applied to the located pending message. -/
theorem signed_replace (FilNATO : ℚ) (n : Node) (c : ReplaceArgs) (m : Message)
    (h : m ∈ signed (offlineMpoolReplaceCmd FilNATO n c).trace) :
    ∃ msg0, (locatePending n c).res = .ok (some msg0) ∧
      (if c.auto then repriceAuto FilNATO n c msg0 else repriceManual n c msg0).res = .ok m := by
  unfold offlineMpoolReplaceCmd at h
  rcases mem_signed_bind _ _ m h with h1 | ⟨found, hfound, h1⟩
  · rw [locatePending_signed] at h1
    cases h1
  · cases found with
    | none => cases h1
    | some msg0 =>
      refine ⟨msg0, hfound, ?_⟩
      dsimp only at h1
      rcases mem_signed_bind _ _ m h1 with h2 | ⟨msg1, hmsg1, h2⟩
      · exfalso
        split at h2
        · rw [repriceAuto_signed] at h2
          cases h2
        · rw [repriceManual_signed] at h2
          cases h2
      · rw [hmsg1]
        congr 1
        simp only [Run.bind_def, Run.pure_def, Run.try_, Run.call, Run.callWrap, Run.println,
          Run.emit, Run.ret, Run.andThen_trace, signed_append] at h2
        revert h2
        repeat' split
        all_goals simp [signed]
        all_goals exact fun h => h.symm

theorem mem_pushes_bind {α β : Type} (x : Run α) (f : α → Run β) (sm : SignedMessage)
    (h : sm ∈ pushes (x >>= f).trace) :
    sm ∈ pushes x.trace ∨ ∃ a, x.res = .ok a ∧ sm ∈ pushes (f a).trace := by
  rw [Run.bind_def, Run.andThen_trace, pushes_append, List.mem_append] at h
  rcases h with h | h
  · exact Or.inl h
  · cases hx : x.res with
    | error e => rw [hx] at h; cases h
    | ok a => rw [hx] at h; exact Or.inr ⟨a, rfl, h⟩

theorem CapGasFee_pushes (d : TokenAmount) (msg : Message) (spec : Option MessageSendSpec) :
    pushes (CapGasFee d msg spec).trace = [] := by
  unfold CapGasFee
  repeat' first
    | split
    | rfl
    | dsimp only

theorem locatePending_pushes (n : Node) (c : ReplaceArgs) :
    pushes (locatePending n c).trace = [] := by
  unfold locatePending
  repeat' first
    | apply pushes_bind_nil
    | intro _
    | split
    | rfl

theorem repriceAuto_pushes (FilNATO : ℚ) (n : Node) (c : ReplaceArgs) (msg : Message) :
    pushes (repriceAuto FilNATO n c msg).trace = [] := by
  unfold repriceAuto
  repeat' first
    | apply pushes_bind_nil
    | apply CapGasFee_pushes
    | intro _
    | split
    | rfl

theorem repriceManual_pushes (n : Node) (c : ReplaceArgs) (msg : Message) :
    pushes (repriceManual n c msg).trace = [] := by
  unfold repriceManual
  repeat' first
    | apply pushes_bind_nil
    | intro _
    | split
    | rfl

/-- Every message pushed by `offline-replace` is the result of the repricing
branch applied to the located pending message. -/
theorem pushes_replace (FilNATO : ℚ) (n : Node) (c : ReplaceArgs) (sm : SignedMessage)
    (h : sm ∈ pushes (offlineMpoolReplaceCmd FilNATO n c).trace) :
    ∃ msg0, (locatePending n c).res = .ok (some msg0) ∧
      (if c.auto then repriceAuto FilNATO n c msg0 else repriceManual n c msg0).res
        = .ok sm.Message := by
  unfold offlineMpoolReplaceCmd at h
  rcases mem_pushes_bind _ _ sm h with h1 | ⟨found, hfound, h1⟩
  · rw [locatePending_pushes] at h1
    cases h1
  · cases found with
    | none => cases h1
    | some msg0 =>
      refine ⟨msg0, hfound, ?_⟩
      dsimp only at h1
      rcases mem_pushes_bind _ _ sm h1 with h2 | ⟨msg1, hmsg1, h2⟩
      · exfalso
        split at h2
        · rw [repriceAuto_pushes] at h2
          cases h2
        · rw [repriceManual_pushes] at h2
          cases h2
      · rw [hmsg1]
        congr 1
        simp only [Run.bind_def, Run.pure_def, Run.try_, Run.call, Run.callWrap, Run.println,
          Run.emit, Run.ret, Run.andThen_trace, pushes_append] at h2
        revert h2
        repeat' split
        all_goals simp [pushes]
        all_goals exact fun h => by rw [h]

theorem CapGasFee_res (d : TokenAmount) (msg : Message) (spec : Option MessageSendSpec)
    (m : Message) (h : (CapGasFee d msg spec).res = .ok m) :
    m.GasPremium = min m.GasFeeCap msg.GasPremium := by
  unfold CapGasFee at h
  dsimp only at h
  repeat' split at h
  all_goals first
    | (cases h; rfl)
    | cases h

/-- The premium that leaves the `auto` branch is the smaller of the final fee
cap and the larger of the estimated premium and the replace-by-fee floor. -/
theorem repriceAuto_res (FilNATO : ℚ) (n : Node) (c : ReplaceArgs) (msg m : Message)
    (h : (repriceAuto FilNATO n c msg).res = .ok m) :
    ∃ r : TokenAmount,
      m.GasPremium = min m.GasFeeCap (max r (ComputeMinRBF msg.GasPremium)) := by
  unfold repriceAuto at h
  dsimp only at h
  obtain ⟨mss, -, h⟩ := Run.bind_res_ok _ _ _ h
  obtain ⟨retm, -, h⟩ := Run.bind_res_ok _ _ _ h
  obtain ⟨msg1, h1, h⟩ := Run.bind_res_ok _ _ _ h
  obtain ⟨msg2, h2, h⟩ := Run.bind_res_ok _ _ _ h
  obtain ⟨u, -, h⟩ := Run.bind_res_ok _ _ _ h
  have hprem : msg1.GasPremium = max retm.GasPremium (ComputeMinRBF msg.GasPremium) := by
    split at h1
    · obtain ⟨_, -, h1⟩ := Run.bind_res_ok _ _ _ h1
      obtain ⟨g, -, h1⟩ := Run.bind_res_ok _ _ _ h1
      obtain ⟨_, -, h1⟩ := Run.bind_res_ok _ _ _ h1
      cases h1
      dsimp only
      split <;> rfl
    · cases h1
      split <;> rfl
  have h3 := CapGasFee_res _ _ _ _ h2
  cases h
  exact ⟨retm.GasPremium, by rw [h3, hprem]⟩

theorem ComputeMinRBF_gt (p : Int) (hp : 0 ≤ p) : p < ComputeMinRBF p := by
  have h : (0 : Int) ≤ p * 64 / 256 := Int.ediv_nonneg (by omega) (by decide)
  show p < p + p * 64 / 256 + 1
  omega

/-- C3, as stated, fails: the pending message has premium 100 (floor 126) and gas
limit 1000, the estimator answers fee cap 200 and premium 100, and `max-fee` is
50000; the cap policy lowers the fee cap to 50 and the premium with it, and the
message signed and pushed has premium 50, below the floor and below 100. -/
theorem replace_auto_premium_counterexample :
    (locatePending (replaceNode 50000) (demoReplaceArgs (some "50000"))).res
      = .ok (some pendingMsg.Message) ∧
    pendingMsg.Message.GasPremium = 100 ∧
    signed (offlineMpoolReplaceCmd 100000000 (replaceNode 50000)
        (demoReplaceArgs (some "50000"))).trace
      = [{ pendingMsg.Message with GasFeeCap := 50, GasPremium := 50 }] ∧
    pushes (offlineMpoolReplaceCmd 100000000 (replaceNode 50000)
        (demoReplaceArgs (some "50000"))).trace
      = [⟨{ pendingMsg.Message with GasFeeCap := 50, GasPremium := 50 }, 2⟩] ∧
    ¬ ComputeMinRBF 100 ≤ 50 ∧ ¬ (100 : Int) < 50 := by
  refine ⟨rfl, rfl, ?_, ?_, ?_, ?_⟩ <;> decide

/-- C3, amended: in auto mode, for a located pending message with premium
`p ≥ 0`, every message that is signed, and every message that is pushed, whose
fee cap is at least `ComputeMinRBF p` has a premium of at least
`ComputeMinRBF p`, hence strictly greater than `p`. -/
theorem replace_auto_premium_floor (FilNATO : ℚ) (n : Node) (c : ReplaceArgs) (msg0 : Message)
    (hauto : c.auto = true)
    (hloc : (locatePending n c).res = .ok (some msg0))
    (hp : 0 ≤ msg0.GasPremium) :
    (∀ m ∈ signed (offlineMpoolReplaceCmd FilNATO n c).trace,
      ComputeMinRBF msg0.GasPremium ≤ m.GasFeeCap →
      ComputeMinRBF msg0.GasPremium ≤ m.GasPremium ∧ msg0.GasPremium < m.GasPremium) ∧
    (∀ sm ∈ pushes (offlineMpoolReplaceCmd FilNATO n c).trace,
      ComputeMinRBF msg0.GasPremium ≤ sm.Message.GasFeeCap →
      ComputeMinRBF msg0.GasPremium ≤ sm.Message.GasPremium ∧
        msg0.GasPremium < sm.Message.GasPremium) := by
  have key : ∀ m : Message,
      (if c.auto then repriceAuto FilNATO n c msg0 else repriceManual n c msg0).res = .ok m →
      ComputeMinRBF msg0.GasPremium ≤ m.GasFeeCap →
      ComputeMinRBF msg0.GasPremium ≤ m.GasPremium ∧ msg0.GasPremium < m.GasPremium := by
    intro m hm hcap
    rw [if_pos hauto] at hm
    obtain ⟨r, hr⟩ := repriceAuto_res FilNATO n c msg0 m hm
    have h1 : ComputeMinRBF msg0.GasPremium ≤ m.GasPremium := by
      rw [hr]
      exact le_min hcap (le_max_right _ _)
    exact ⟨h1, lt_of_lt_of_le (ComputeMinRBF_gt _ hp) h1⟩
  constructor
  · intro m hm
    obtain ⟨msg1, hl, hres⟩ := signed_replace FilNATO n c m hm
    rw [hloc] at hl
    cases hl
    exact key m hres
  · intro sm hsm
    obtain ⟨msg1, hl, hres⟩ := pushes_replace FilNATO n c sm hsm
    rw [hloc] at hl
    cases hl
    exact key sm.Message hres

/-- Witness for C3 amended: without `max-fee` the message signed for `pendingMsg`
has fee cap 200 and premium 126, the floor for premium 100. -/
theorem replace_auto_premium_floor_witness :
    ComputeMinRBF pendingMsg.Message.GasPremium ≤
        ({ pendingMsg.Message with GasFeeCap := 200, GasPremium := 126 } : Message).GasPremium ∧
      pendingMsg.Message.GasPremium <
        ({ pendingMsg.Message with GasFeeCap := 200, GasPremium := 126 } : Message).GasPremium :=
  (replace_auto_premium_floor 100000000 (replaceNode 0) (demoReplaceArgs none)
    pendingMsg.Message rfl rfl (by decide)).1
    { pendingMsg.Message with GasFeeCap := 200, GasPremium := 126 } (by decide) (by decide)

/-- C4: in auto mode every message that `offline-replace` signs, and every
message it pushes, has a gas fee cap at least as large as its gas premium,
whatever the pending message, the estimator's answer, the gas-limit and
gas-feecap overrides and the max-fee ceiling are. -/
theorem replace_auto_feecap_ge_premium (FilNATO : ℚ) (n : Node) (c : ReplaceArgs)
    (hauto : c.auto = true) :
    (∀ m ∈ signed (offlineMpoolReplaceCmd FilNATO n c).trace, m.GasPremium ≤ m.GasFeeCap) ∧
    (∀ sm ∈ pushes (offlineMpoolReplaceCmd FilNATO n c).trace,
      sm.Message.GasPremium ≤ sm.Message.GasFeeCap) := by
  constructor
  · intro m hm
    obtain ⟨msg0, -, hres⟩ := signed_replace FilNATO n c m hm
    rw [if_pos hauto] at hres
    obtain ⟨r, hr⟩ := repriceAuto_res FilNATO n c msg0 m hres
    rw [hr]
    exact min_le_left _ _
  · intro sm hsm
    obtain ⟨msg0, -, hres⟩ := pushes_replace FilNATO n c sm hsm
    rw [if_pos hauto] at hres
    obtain ⟨r, hr⟩ := repriceAuto_res FilNATO n c msg0 sm.Message hres
    rw [hr]
    exact min_le_left _ _

/-- Witness for C4: the message signed for `pendingMsg` under `max-fee` 50000 has
premium 50 and fee cap 50. -/
theorem replace_auto_feecap_ge_premium_witness :
    ({ pendingMsg.Message with GasFeeCap := 50, GasPremium := 50 } : Message).GasPremium ≤
      ({ pendingMsg.Message with GasFeeCap := 50, GasPremium := 50 } : Message).GasFeeCap :=
  (replace_auto_feecap_ge_premium 100000000 (replaceNode 50000)
    (demoReplaceArgs (some "50000")) rfl).1
    { pendingMsg.Message with GasFeeCap := 50, GasPremium := 50 } (by decide)

/-- Witness for C10 on `balanceNode` (available balance 500): the amount 600 is
refused, the amount 300 is requested as 300, and no argument requests 500. -/
theorem withdraw_amount_check_witness :
    (offlineWithdrawCmd 100000000 (balanceNode 600) (demoWithdrawArgs ["600"])).res
      = .error (.withdrawMoreThanAvailable 600 500) ∧
    serialized (offlineWithdrawCmd 100000000 (balanceNode 300) (demoWithdrawArgs ["300"])).trace
      = [.withdrawBalance 300] ∧
    serialized (offlineWithdrawCmd 100000000 (balanceNode 300) (demoWithdrawArgs [])).trace
      = [.withdrawBalance 500] :=
  ⟨(((withdraw_amount_check 100000000 (balanceNode 600) (demoWithdrawArgs ["600"])
      "1.0" [] ⟨"secp256k1", []⟩ ⟨"f01000"⟩ 500 rfl rfl rfl rfl rfl).1
      "600" [] 600 rfl rfl).1 (by decide)).1,
   ((withdraw_amount_check 100000000 (balanceNode 300) (demoWithdrawArgs ["300"])
      "1.0" [] ⟨"secp256k1", []⟩ ⟨"f01000"⟩ 500 rfl rfl rfl rfl rfl).1
      "300" [] 300 rfl rfl).2 (by decide),
   (withdraw_amount_check 100000000 (balanceNode 300) (demoWithdrawArgs [])
      "1.0" [] ⟨"secp256k1", []⟩ ⟨"f01000"⟩ 500 rfl rfl rfl rfl rfl).2 rfl⟩

theorem Run.bind_res_of_ok {α β : Type} (x : Run α) (f : α → Run β) (a : α)
    (h : x.res = .ok a) : (x >>= f).res = (f a).res := by
  rw [Run.bind_def, Run.andThen_res, h]

theorem Run.bind_res_of_error {α β : Type} (x : Run α) (f : α → Run β) (e : Err)
    (h : x.res = .error e) : (x >>= f).res = .error e := by
  rw [Run.bind_def, Run.andThen_res, h]

theorem CapGasFee_frame (d : TokenAmount) (msg : Message) (spec : Option MessageSendSpec)
    (m : Message) (h : (CapGasFee d msg spec).res = .ok m) : m.sameExceptGas msg := by
  unfold CapGasFee at h
  dsimp only at h
  repeat' split at h
  all_goals first
    | (cases h; exact ⟨rfl, rfl, rfl, rfl, rfl, rfl⟩)
    | cases h

theorem repriceAuto_frame (FilNATO : ℚ) (n : Node) (c : ReplaceArgs) (msg m : Message)
    (h : (repriceAuto FilNATO n c msg).res = .ok m) : m.sameExceptGas msg := by
  unfold repriceAuto at h
  dsimp only at h
  obtain ⟨mss, -, h⟩ := Run.bind_res_ok _ _ _ h
  obtain ⟨retm, -, h⟩ := Run.bind_res_ok _ _ _ h
  obtain ⟨msg1, h1, h⟩ := Run.bind_res_ok _ _ _ h
  obtain ⟨msg2, h2, h⟩ := Run.bind_res_ok _ _ _ h
  obtain ⟨u, -, h⟩ := Run.bind_res_ok _ _ _ h
  have hf1 : msg1.sameExceptGas msg := by
    split at h1
    · obtain ⟨_, -, h1⟩ := Run.bind_res_ok _ _ _ h1
      obtain ⟨g, -, h1⟩ := Run.bind_res_ok _ _ _ h1
      obtain ⟨_, -, h1⟩ := Run.bind_res_ok _ _ _ h1
      cases h1
      unfold Message.sameExceptGas
      dsimp only
      split <;> exact ⟨rfl, rfl, rfl, rfl, rfl, rfl⟩
    · cases h1
      unfold Message.sameExceptGas
      split <;> exact ⟨rfl, rfl, rfl, rfl, rfl, rfl⟩
  have hf2 := CapGasFee_frame _ _ _ _ h2
  cases h
  obtain ⟨a1, a2, a3, a4, a5, a6⟩ := hf1
  obtain ⟨b1, b2, b3, b4, b5, b6⟩ := hf2
  exact ⟨b1.trans a1, b2.trans a2, b3.trans a3, b4.trans a4, b5.trans a5, b6.trans a6⟩

theorem repriceManual_frame (n : Node) (c : ReplaceArgs) (msg m : Message)
    (h : (repriceManual n c msg).res = .ok m) : m.sameExceptGas msg := by
  unfold repriceManual at h
  dsimp only at h
  obtain ⟨p, -, h⟩ := Run.bind_res_ok _ _ _ h
  obtain ⟨f, -, h⟩ := Run.bind_res_ok _ _ _ h
  cases h
  unfold Message.sameExceptGas
  dsimp only
  split <;> exact ⟨rfl, rfl, rfl, rfl, rfl, rfl⟩

/-- The lookup of `locatePending`, once sender and nonce are determined from the
arguments, the chain head is obtained and the pending messages are listed. -/
theorem locatePending_res (n : Node) (c : ReplaceArgs) (sender : Address) (nonce : Nat)
    (ts : TipSet) (pending : List SignedMessage)
    (htarget :
      (∃ a mcid ref, c.args = [a] ∧ n.cidDecode a = .ok mcid ∧ n.ChainGetMessage mcid = .ok ref ∧
        ref.From = sender ∧ ref.Nonce = nonce) ∨
      (∃ a b, c.args = [a, b] ∧ n.NewFromString a = .ok sender ∧ n.ParseUint b = .ok nonce))
    (hhead : n.ChainHead = .ok ts) (hpend : n.MpoolPending ts.Key = .ok pending) :
    (locatePending n c).res =
      match pending.find? fun p => decide (p.Message.From = sender ∧ p.Message.Nonce = nonce) with
      | none => .error (.noPendingMessage sender nonce)
      | some found => .ok (some found.Message) := by
  unfold locatePending
  rcases htarget with ⟨a, mcid, ref, hargs, hcid, hget, hf, hn⟩ | ⟨a, b, hargs, hf, hn⟩
  · subst hf hn
    simp only [hargs, hcid, hget, hhead, hpend, Run.bind_def, Run.pure_def, Run.try_,
      Run.tryWrap, Run.wrapErr, Run.ret, Run.andThen_ok, Run.andThen_res]
    split <;> rfl
  · simp only [hargs, hf, hn, hhead, hpend, Run.bind_def, Run.pure_def, Run.try_,
      Run.tryWrap, Run.wrapErr, Run.ret, Run.andThen_ok, Run.andThen_res]
    split <;> rfl

/-- C11: in `offline-replace`, in both modes, once sender and nonce are
determined from the arguments, the chain head is obtained and the pending
messages are listed: if a pending message matches, the first match has the
requested sender and nonce, and every message signed and every message pushed
agrees with it on sender, nonce, recipient, method, value and params; if none
matches, the command returns the "no pending message found" error and nothing
is signed or pushed. -/
theorem replace_keeps_identity (FilNATO : ℚ) (n : Node) (c : ReplaceArgs) (sender : Address)
    (nonce : Nat) (ts : TipSet) (pending : List SignedMessage)
    (htarget :
      (∃ a mcid ref, c.args = [a] ∧ n.cidDecode a = .ok mcid ∧ n.ChainGetMessage mcid = .ok ref ∧
        ref.From = sender ∧ ref.Nonce = nonce) ∨
      (∃ a b, c.args = [a, b] ∧ n.NewFromString a = .ok sender ∧ n.ParseUint b = .ok nonce))
    (hhead : n.ChainHead = .ok ts) (hpend : n.MpoolPending ts.Key = .ok pending) :
    (∀ found,
      pending.find? (fun p => decide (p.Message.From = sender ∧ p.Message.Nonce = nonce))
        = some found →
      found.Message.From = sender ∧ found.Message.Nonce = nonce ∧
      (∀ m ∈ signed (offlineMpoolReplaceCmd FilNATO n c).trace, m.sameExceptGas found.Message) ∧
      (∀ sm ∈ pushes (offlineMpoolReplaceCmd FilNATO n c).trace,
        sm.Message.sameExceptGas found.Message)) ∧
    (pending.find? (fun p => decide (p.Message.From = sender ∧ p.Message.Nonce = nonce)) = none →
      (offlineMpoolReplaceCmd FilNATO n c).res = .error (.noPendingMessage sender nonce) ∧
      signed (offlineMpoolReplaceCmd FilNATO n c).trace = [] ∧
      pushes (offlineMpoolReplaceCmd FilNATO n c).trace = []) := by
  have hloc := locatePending_res n c sender nonce ts pending htarget hhead hpend
  constructor
  · intro found hfind
    rw [hfind] at hloc
    have hmatch := List.find?_some hfind
    simp only [decide_eq_true_eq] at hmatch
    have key : ∀ m : Message,
        (if c.auto then repriceAuto FilNATO n c found.Message
          else repriceManual n c found.Message).res = .ok m → m.sameExceptGas found.Message := by
      intro m hm
      split at hm
      · exact repriceAuto_frame _ _ _ _ _ hm
      · exact repriceManual_frame _ _ _ _ hm
    refine ⟨hmatch.1, hmatch.2, ?_, ?_⟩
    · intro m hm
      obtain ⟨msg1, hl, hres⟩ := signed_replace FilNATO n c m hm
      rw [hloc] at hl
      cases hl
      exact key m hres
    · intro sm hsm
      obtain ⟨msg1, hl, hres⟩ := pushes_replace FilNATO n c sm hsm
      rw [hloc] at hl
      cases hl
      exact key sm.Message hres
  · intro hfind
    rw [hfind] at hloc
    refine ⟨?_, ?_, ?_⟩
    · unfold offlineMpoolReplaceCmd
      exact Run.bind_res_of_error _ _ _ hloc
    · cases hs : signed (offlineMpoolReplaceCmd FilNATO n c).trace with
      | nil => rfl
      | cons m l =>
        obtain ⟨msg1, hl, -⟩ := signed_replace FilNATO n c m (by rw [hs]; exact List.mem_cons_self _ _)
        rw [hloc] at hl
        cases hl
    · cases hs : pushes (offlineMpoolReplaceCmd FilNATO n c).trace with
      | nil => rfl
      | cons m l =>
        obtain ⟨msg1, hl, -⟩ := pushes_replace FilNATO n c m (by rw [hs]; exact List.mem_cons_self _ _)
        rw [hloc] at hl
        cases hl

/-- Witness for C11: the message signed for `pendingMsg` on `replaceNode` keeps
everything but the fee fields; on `demoNode`, whose pool is empty, the command
returns the error. -/
theorem replace_keeps_identity_witness :
    ({ pendingMsg.Message with GasFeeCap := 200, GasPremium := 126 } : Message).sameExceptGas
        pendingMsg.Message ∧
    (offlineMpoolReplaceCmd 100000000 demoNode (demoReplaceArgs none)).res
      = .error (.noPendingMessage ⟨"f3owner"⟩ 5) :=
  ⟨((replace_keeps_identity 100000000 (replaceNode 0) (demoReplaceArgs none) ⟨"f3owner"⟩ 5
      ⟨[], 100⟩ [pendingMsg] (Or.inr ⟨"f3owner", "5", rfl, rfl, rfl⟩) rfl rfl).1
      pendingMsg rfl).2.2.1 _ (by decide),
   ((replace_keeps_identity 100000000 demoNode (demoReplaceArgs none) ⟨"f3owner"⟩ 5
      ⟨[], 100⟩ [] (Or.inr ⟨"f3owner", "5", rfl, rfl, rfl⟩) rfl rfl).2 rfl).1⟩

theorem signed_eq_nil_of_reprice_error (FilNATO : ℚ) (n : Node) (c : ReplaceArgs)
    (h : ∀ msg0 m, (locatePending n c).res = .ok (some msg0) →
      (if c.auto then repriceAuto FilNATO n c msg0 else repriceManual n c msg0).res ≠ .ok m) :
    signed (offlineMpoolReplaceCmd FilNATO n c).trace = [] ∧
    pushes (offlineMpoolReplaceCmd FilNATO n c).trace = [] := by
  constructor
  · rw [List.eq_nil_iff_forall_not_mem]
    intro m hm
    obtain ⟨msg0, hl, hres⟩ := signed_replace FilNATO n c m hm
    exact h msg0 m hl hres
  · rw [List.eq_nil_iff_forall_not_mem]
    intro sm hsm
    obtain ⟨msg0, hl, hres⟩ := pushes_replace FilNATO n c sm hsm
    exact h msg0 sm.Message hl hres

theorem replace_res_of_reprice_error (FilNATO : ℚ) (n : Node) (c : ReplaceArgs) (msg0 : Message)
    (e : Err) (hloc : (locatePending n c).res = .ok (some msg0))
    (h : (if c.auto then repriceAuto FilNATO n c msg0 else repriceManual n c msg0).res
      = .error e) :
    (offlineMpoolReplaceCmd FilNATO n c).res = .error e := by
  unfold offlineMpoolReplaceCmd
  rw [Run.bind_res_of_ok _ _ _ hloc]
  exact Run.bind_res_of_error _ _ _ h

/-- C12, as stated, fails: without `auto`, with `gas-premium` 100 and
`gas-feecap` 50, `offline-replace` returns success and the message signed and
pushed has fee cap 50 below its premium 100. -/
theorem replace_manual_feecap_counterexample :
    (offlineMpoolReplaceCmd 100000000 manualNode demoManualArgs).res = .ok () ∧
    signed (offlineMpoolReplaceCmd 100000000 manualNode demoManualArgs).trace
      = [{ pendingMsg.Message with GasFeeCap := 50, GasPremium := 100 }] ∧
    pushes (offlineMpoolReplaceCmd 100000000 manualNode demoManualArgs).trace
      = [⟨{ pendingMsg.Message with GasFeeCap := 50, GasPremium := 100 }, 2⟩] ∧
    (50 : Int) < 100 := by
  refine ⟨rfl, ?_, ?_, ?_⟩ <;> decide

/-- C12, amended: with `auto` no message whose fee cap is below its premium is
signed or pushed (the cap policy lowers the premium instead of failing).
Without `auto`, for a located pending message: when the big-integer parser
rejects the `gas-premium` string, or accepts it and rejects the `gas-feecap`
string, the command returns that error wrapped as "parsing gas-premium" resp.
"parsing gas-feecap" and nothing is signed or pushed; when it accepts both,
every message signed or pushed carries exactly the two parsed amounts, which are
not compared with each other. -/
theorem replace_fee_parameters (FilNATO : ℚ) (n : Node) (c : ReplaceArgs) :
    (c.auto = true →
      (∀ m ∈ signed (offlineMpoolReplaceCmd FilNATO n c).trace, m.GasPremium ≤ m.GasFeeCap) ∧
      (∀ sm ∈ pushes (offlineMpoolReplaceCmd FilNATO n c).trace,
        sm.Message.GasPremium ≤ sm.Message.GasFeeCap)) ∧
    (c.auto = false → ∀ msg0, (locatePending n c).res = .ok (some msg0) →
      (∀ e, n.BigFromString c.gasPremium = .error e →
        (offlineMpoolReplaceCmd FilNATO n c).res = .error (.wrapped "parsing gas-premium" e) ∧
        signed (offlineMpoolReplaceCmd FilNATO n c).trace = [] ∧
        pushes (offlineMpoolReplaceCmd FilNATO n c).trace = []) ∧
      (∀ p e, n.BigFromString c.gasPremium = .ok p → n.BigFromString c.gasFeecap = .error e →
        (offlineMpoolReplaceCmd FilNATO n c).res = .error (.wrapped "parsing gas-feecap" e) ∧
        signed (offlineMpoolReplaceCmd FilNATO n c).trace = [] ∧
        pushes (offlineMpoolReplaceCmd FilNATO n c).trace = []) ∧
      (∀ p f, n.BigFromString c.gasPremium = .ok p → n.BigFromString c.gasFeecap = .ok f →
        (∀ m ∈ signed (offlineMpoolReplaceCmd FilNATO n c).trace,
          m.GasPremium = p ∧ m.GasFeeCap = f) ∧
        (∀ sm ∈ pushes (offlineMpoolReplaceCmd FilNATO n c).trace,
          sm.Message.GasPremium = p ∧ sm.Message.GasFeeCap = f))) := by
  constructor
  · intro hauto
    constructor
    · intro m hm
      obtain ⟨msg0, -, hres⟩ := signed_replace FilNATO n c m hm
      rw [if_pos hauto] at hres
      obtain ⟨r, hr⟩ := repriceAuto_res FilNATO n c msg0 m hres
      rw [hr]
      exact min_le_left _ _
    · intro sm hsm
      obtain ⟨msg0, -, hres⟩ := pushes_replace FilNATO n c sm hsm
      rw [if_pos hauto] at hres
      obtain ⟨r, hr⟩ := repriceAuto_res FilNATO n c msg0 sm.Message hres
      rw [hr]
      exact min_le_left _ _
  · intro hman msg0 hloc
    have hnot : ¬ c.auto = true := by rw [hman]; decide
    refine ⟨?_, ?_, ?_⟩
    · intro e he
      have hre : ∀ msg : Message,
          (if c.auto then repriceAuto FilNATO n c msg else repriceManual n c msg).res
            = .error (.wrapped "parsing gas-premium" e) := by
        intro msg
        rw [if_neg hnot]
        unfold repriceManual
        simp only [he, Run.bind_def, Run.tryWrap, Run.wrapErr, Run.andThen_error]
      refine ⟨replace_res_of_reprice_error _ _ _ _ _ hloc (hre msg0), ?_⟩
      apply signed_eq_nil_of_reprice_error
      intro msg m _ hm
      rw [hre msg] at hm
      cases hm
    · intro p e hp he
      have hre : ∀ msg : Message,
          (if c.auto then repriceAuto FilNATO n c msg else repriceManual n c msg).res
            = .error (.wrapped "parsing gas-feecap" e) := by
        intro msg
        rw [if_neg hnot]
        unfold repriceManual
        simp only [hp, he, Run.bind_def, Run.tryWrap, Run.wrapErr, Run.andThen_ok,
          Run.andThen_error]
      refine ⟨replace_res_of_reprice_error _ _ _ _ _ hloc (hre msg0), ?_⟩
      apply signed_eq_nil_of_reprice_error
      intro msg m _ hm
      rw [hre msg] at hm
      cases hm
    · intro p f hp hf
      have hre : ∀ msg m : Message,
          (if c.auto then repriceAuto FilNATO n c msg else repriceManual n c msg).res = .ok m →
          m.GasPremium = p ∧ m.GasFeeCap = f := by
        intro msg m hm
        rw [if_neg hnot] at hm
        unfold repriceManual at hm
        simp only [hp, hf, Run.bind_def, Run.pure_def, Run.ret, Run.tryWrap, Run.wrapErr,
          Run.andThen_ok] at hm
        cases hm
        exact ⟨rfl, rfl⟩
      constructor
      · intro m hm
        obtain ⟨msg1, -, hres⟩ := signed_replace FilNATO n c m hm
        exact hre msg1 m hres
      · intro sm hsm
        obtain ⟨msg1, -, hres⟩ := pushes_replace FilNATO n c sm hsm
        exact hre msg1 sm.Message hres

/-- The block `feeCapOverride` is the part of `repriceAuto` between the
gas-limit override and the cap policy. -/
theorem repriceAuto_eq (FilNATO : ℚ) (n : Node) (c : ReplaceArgs) (msg : Message) :
    repriceAuto FilNATO n c msg =
      (do
        let mss : Option MessageSendSpec ←
          (match c.maxFee with
          | some str => do
            let maxFee ← Run.tryWrap "parsing max-spend" (n.BigFromString str)
            pure (some ⟨maxFee⟩)
          | none => pure none)
        let msg0 : Message := { msg with GasFeeCap := 0, GasPremium := 0 }
        let retm ← Run.callWrap (.gasEstimateMessageGas msg0 mss) "failed to estimate gas values"
          (n.GasEstimateMessageGas msg0 mss EmptyTSK)
        let premium := max retm.GasPremium (ComputeMinRBF msg.GasPremium)
        let msg1 : Message :=
          { msg with GasPremium := premium, GasFeeCap := max retm.GasFeeCap premium }
        let msg2 : Message := if c.gasLimit > 0 then { msg1 with GasLimit := c.gasLimit } else msg1
        let msg3 ← feeCapOverride FilNATO n ((n.ParseFloat c.gasFeecap).getD 0) msg2
        let msg4 ← CapGasFee n.DefaultDefaultMaxFee msg3 mss
        Run.println (.gasFeeCapFixed msg4.Nonce msg4.GasFeeCap)
        pure msg4) := rfl

theorem feeCapOverride_cases (FilNATO : ℚ) (n : Node) (v : ℚ) (msg : Message) :
    (0 < v → v < 20 →
      (feeCapOverride FilNATO n v msg).res = .ok { msg with
        GasFeeCap := int64OfFloat n.int64OutOfRange (n.mulFloat64 (n.mulFloat64 v FilNATO) 10) }) ∧
    (20 ≤ v → 10 * FilNATO ≤ v → v ≤ 90 * FilNATO →
      (feeCapOverride FilNATO n v msg).res
        = .ok { msg with GasFeeCap := int64OfFloat n.int64OutOfRange v }) ∧
    (20 ≤ v → (v < 10 * FilNATO ∨ 90 * FilNATO < v) →
      (feeCapOverride FilNATO n v msg).res = .error .failedToEstimateGasValues) ∧
    (v ≤ 0 → (feeCapOverride FilNATO n v msg).res = .ok msg) := by
  unfold feeCapOverride
  refine ⟨?_, ?_, ?_, ?_⟩
  · intro h0 h20
    have h0' : v > 0 := h0
    simp only [h0', h20, if_true, Run.bind_def, Run.pure_def, Run.println, Run.emit, Run.ret,
      Run.andThen_ok]
  · intro h20 hlo hhi
    have h0' : v > 0 := lt_of_lt_of_le (by norm_num) h20
    have hn20 : ¬ v < 20 := not_lt.mpr h20
    have hband : v ≥ 10 * FilNATO ∧ v ≤ 90 * FilNATO := ⟨hlo, hhi⟩
    simp only [h0', hn20, hband, if_true, if_false, and_self, Run.bind_def, Run.pure_def,
      Run.println, Run.emit, Run.ret, Run.andThen_ok]
  · intro h20 hout
    have h0' : v > 0 := lt_of_lt_of_le (by norm_num) h20
    have hn20 : ¬ v < 20 := not_lt.mpr h20
    have hband : ¬ (v ≥ 10 * FilNATO ∧ v ≤ 90 * FilNATO) := by
      rintro ⟨hlo, hhi⟩
      rcases hout with h | h
      · exact absurd hlo (not_le.mpr h)
      · exact absurd hhi (not_le.mpr h)
    simp only [h0', hn20, hband, if_true, if_false, Run.bind_def, Run.println, Run.emit,
      Run.fail, Run.andThen_ok, Run.andThen_error]
  · intro hle
    have h0' : ¬ v > 0 := not_lt.mpr hle
    simp only [h0', if_false, Run.pure_def, Run.ret]

theorem int64OfFloat_inRange (ov : ℚ → Int) (f : ℚ)
    (hlo : -2 ^ 63 ≤ truncToZero f) (hhi : truncToZero f < 2 ^ 63) :
    int64OfFloat ov f = truncToZero f := by
  unfold int64OfFloat
  rw [if_pos ⟨hlo, hhi⟩]

theorem truncToZero_natCast (k : Nat) : truncToZero (k : ℚ) = k := by
  unfold truncToZero
  rw [if_pos (Nat.cast_nonneg k)]
  show ⌊((k : ℕ) : ℚ)⌋ = (k : ℤ)
  exact Int.floor_natCast k

theorem repriceAuto_reject (FilNATO : ℚ) (n : Node) (c : ReplaceArgs) (msg m : Message)
    (h20 : 20 ≤ (n.ParseFloat c.gasFeecap).getD 0)
    (hout : (n.ParseFloat c.gasFeecap).getD 0 < 10 * FilNATO ∨
      90 * FilNATO < (n.ParseFloat c.gasFeecap).getD 0) :
    (repriceAuto FilNATO n c msg).res ≠ .ok m := by
  intro h
  rw [repriceAuto_eq] at h
  obtain ⟨mss, -, h⟩ := Run.bind_res_ok _ _ _ h
  dsimp only at h
  obtain ⟨retm, -, h⟩ := Run.bind_res_ok _ _ _ h
  obtain ⟨msg3, h3, -⟩ := Run.bind_res_ok _ _ _ h
  rw [(feeCapOverride_cases FilNATO n _ _).2.2.1 h20 hout] at h3
  cases h3

/-- C13, as stated, fails: with `FilNATO` 100000000 the raw value 1000 is
positive, not below 20 and not above `90 * FilNATO`, yet `offline-replace` in
auto mode returns "failed to estimate gas values" and signs nothing: values
from 20 up to the lower end of the band are rejected as well. -/
theorem replace_raw_feecap_counterexample :
    (offlineMpoolReplaceCmd 100000000 (floatNode 1000) (demoFeeCapArgs "1000")).res
      = .error .failedToEstimateGasValues ∧
    signed (offlineMpoolReplaceCmd 100000000 (floatNode 1000) (demoFeeCapArgs "1000")).trace = [] ∧
    (0 : ℚ) < 1000 ∧ ¬ ((1000 : ℚ) > 90 * 100000000) := by
  have h20 : (20 : ℚ) ≤ ((floatNode 1000).ParseFloat (demoFeeCapArgs "1000").gasFeecap).getD 0 := by
    show (20 : ℚ) ≤ 1000
    norm_num
  have hout : ((floatNode 1000).ParseFloat (demoFeeCapArgs "1000").gasFeecap).getD 0
        < 10 * 100000000 ∨
      90 * 100000000 < ((floatNode 1000).ParseFloat (demoFeeCapArgs "1000").gasFeecap).getD 0 := by
    left
    show (1000 : ℚ) < 10 * 100000000
    norm_num
  have hre : (if (demoFeeCapArgs "1000").auto then
        repriceAuto 100000000 (floatNode 1000) (demoFeeCapArgs "1000") pendingMsg.Message
      else repriceManual (floatNode 1000) (demoFeeCapArgs "1000") pendingMsg.Message).res
      = .error .failedToEstimateGasValues := by
    rw [if_pos (show (demoFeeCapArgs "1000").auto = true from rfl), repriceAuto_eq]
    refine (Run.bind_res_of_ok _ _ none rfl).trans ?_
    refine (Run.bind_res_of_ok _ _ _ rfl).trans ?_
    exact Run.bind_res_of_error _ _ _ ((feeCapOverride_cases 100000000 _ _ _).2.2.1 h20 hout)
  refine ⟨replace_res_of_reprice_error _ _ _ _ _ rfl hre, ?_, by norm_num, by norm_num⟩
  exact (signed_eq_nil_of_reprice_error _ _ _
    (fun msg m _ => by
      rw [if_pos (show (demoFeeCapArgs "1000").auto = true from rfl)]
      exact repriceAuto_reject _ _ _ msg m h20 hout)).1

/-- C13, amended: the block of the auto branch that handles the raw value `v` of
`gas-feecap` has four cases that cover all values.  For `0 < v < 20` the fee
cap of the message, before the cap policy runs, becomes `int64` of the `float64`
product `v * FilNATO * 10`; for `20 ≤ v` inside the band `10 * FilNATO ≤ v ≤
90 * FilNATO` it becomes `int64` of `v`; for `20 ≤ v` outside the band, below it
or above it, the block returns "failed to estimate gas values"; for `v ≤ 0` the
message is left as it is.  The conversion `int64` is the truncation towards zero
whenever that is in the range of `int64`.  In the rejected case the command
signs and pushes nothing and, for a located pending message, returns an
error. -/
theorem replace_raw_feecap_cases (FilNATO : ℚ) :
    (∀ (n : Node) (v : ℚ) (msg : Message),
      (0 < v → v < 20 →
        (feeCapOverride FilNATO n v msg).res = .ok { msg with
          GasFeeCap :=
            int64OfFloat n.int64OutOfRange (n.mulFloat64 (n.mulFloat64 v FilNATO) 10) }) ∧
      (20 ≤ v → 10 * FilNATO ≤ v → v ≤ 90 * FilNATO →
        (feeCapOverride FilNATO n v msg).res
          = .ok { msg with GasFeeCap := int64OfFloat n.int64OutOfRange v }) ∧
      (20 ≤ v → (v < 10 * FilNATO ∨ 90 * FilNATO < v) →
        (feeCapOverride FilNATO n v msg).res = .error .failedToEstimateGasValues) ∧
      (v ≤ 0 → (feeCapOverride FilNATO n v msg).res = .ok msg)) ∧
    (∀ (outOfRange : ℚ → Int) (f : ℚ),
      -2 ^ 63 ≤ truncToZero f → truncToZero f < 2 ^ 63 →
      int64OfFloat outOfRange f = truncToZero f) ∧
    (∀ (n : Node) (c : ReplaceArgs), c.auto = true →
      20 ≤ (n.ParseFloat c.gasFeecap).getD 0 →
      ((n.ParseFloat c.gasFeecap).getD 0 < 10 * FilNATO ∨
        90 * FilNATO < (n.ParseFloat c.gasFeecap).getD 0) →
      signed (offlineMpoolReplaceCmd FilNATO n c).trace = [] ∧
      pushes (offlineMpoolReplaceCmd FilNATO n c).trace = [] ∧
      ∀ msg0, (locatePending n c).res = .ok (some msg0) →
        ∃ e, (offlineMpoolReplaceCmd FilNATO n c).res = .error e) := by
  refine ⟨fun n v msg => feeCapOverride_cases FilNATO n v msg,
    fun ov f hlo hhi => int64OfFloat_inRange ov f hlo hhi, ?_⟩
  intro n c hauto h20 hout
  have hne : ∀ msg m : Message,
      (if c.auto then repriceAuto FilNATO n c msg else repriceManual n c msg).res ≠ .ok m := by
    intro msg m
    rw [if_pos hauto]
    exact repriceAuto_reject FilNATO n c msg m h20 hout
  obtain ⟨hs, hp⟩ := signed_eq_nil_of_reprice_error FilNATO n c (fun msg0 m _ => hne msg0 m)
  refine ⟨hs, hp, ?_⟩
  intro msg0 hloc
  cases hr : (if c.auto then repriceAuto FilNATO n c msg0 else repriceManual n c msg0).res with
  | ok m => exact absurd hr (hne msg0 m)
  | error e => exact ⟨e, replace_res_of_reprice_error FilNATO n c msg0 e hloc hr⟩

theorem roundingNode_product :
    roundingNode.mulFloat64 (roundingNode.mulFloat64 float03 100000000) 10 = 300000000 := by
  simp [roundingNode, float03]
  norm_num

theorem truncToZero_exact_product : truncToZero (float03 * 100000000 * 10) = 299999999 := by
  unfold truncToZero float03
  rw [if_pos (by norm_num)]
  show ⌊((5404319552844595 : ℚ) / 18014398509481984 * 100000000 * 10)⌋ = (299999999 : ℤ)
  rw [Int.floor_eq_iff]
  norm_num

/-- Witness for C13 amended with `FilNATO` 100000000: on `roundingNode` the raw
value 0.3 is scaled to the fee cap 300000000, the truncation of the rounded
product (the exact product would truncate to 299999999); the raw value
2000000000 lies in the band and is taken as it is. -/
theorem replace_raw_feecap_cases_witness :
    ((feeCapOverride 100000000 roundingNode float03 pendingMsg.Message).res
        = .ok { pendingMsg.Message with
            GasFeeCap := int64OfFloat roundingNode.int64OutOfRange
              (roundingNode.mulFloat64 (roundingNode.mulFloat64 float03 100000000) 10) } ∧
      int64OfFloat roundingNode.int64OutOfRange
          (roundingNode.mulFloat64 (roundingNode.mulFloat64 float03 100000000) 10)
        = 300000000 ∧
      truncToZero (float03 * 100000000 * 10) = 299999999) ∧
    (feeCapOverride 100000000 demoNode 2000000000 pendingMsg.Message).res
      = .ok { pendingMsg.Message with
          GasFeeCap := int64OfFloat demoNode.int64OutOfRange 2000000000 } :=
  ⟨⟨((replace_raw_feecap_cases 100000000).1 roundingNode float03 pendingMsg.Message).1
      (by norm_num [float03]) (by norm_num [float03]),
    by
      rw [roundingNode_product]
      have h : truncToZero (300000000 : ℚ) = 300000000 := truncToZero_natCast 300000000
      rw [(replace_raw_feecap_cases 100000000).2.1 _ _ (by rw [h]; norm_num) (by rw [h]; norm_num)]
      exact h,
    truncToZero_exact_product⟩,
   ((replace_raw_feecap_cases 100000000).1 demoNode 2000000000 pendingMsg.Message).2.1
      (by norm_num) (by norm_num) (by norm_num)⟩

/-! ## Postcondition and owner checks of the worker-change commands -/

/-- C14: in both worker-change commands with `really-do-it`, once every step up
to the inclusion of the pushed message has succeeded, the receipt has exit code
0 and the miner info is fetched again at the tipset of inclusion:
`actorProposeChangeWorker` returns the "Proposed worker address change not
reflected on chain" error if the fetched `NewWorker` differs from the resolved
new address and success otherwise; `actorConfirmChangeWorker` returns the
"Confirmed worker address change not reflected on chain" error if the fetched
`Worker` differs from it and success otherwise. -/
theorem changeWorker_postcondition (n : Node) (c : ChangeWorkerArgs)
    (owner maddr newmaddr newAddr : Address) (mi : MinerInfo) (key1 : Bytes) (ownerKey : KeyInfo)
    (ho : n.NewFromString c.owner = .ok owner)
    (hm : n.NewFromString c.maddr = .ok maddr)
    (hmi : n.StateMinerInfo maddr EmptyTSK = .ok mi)
    (hn : n.NewFromString c.newaddr = .ok newmaddr)
    (hl : n.StateLookupID newmaddr EmptyTSK = .ok newAddr)
    (hdo : c.reallyDoIt = true)
    (hhex : n.hexDecodeString c.key = .ok key1)
    (hjson : n.jsonUnmarshal key1 = .ok ownerKey) :
    (∀ (sp : Bytes) (nonce : Nat) (est : Message) (mb : Cid) (sig : Signature) (smsg : Cid)
        (wait : MsgLookup) (mi2 : MinerInfo),
      (if mi.NewWorker.Empty then mi.Worker ≠ newAddr else mi.NewWorker ≠ newAddr) →
      n.SerializeParams (.changeWorkerAddress newAddr mi.ControlAddresses) = .ok sp →
      n.MpoolGetNonce owner = .ok nonce →
      n.GasEstimateMessageGas
        { To := maddr, From := owner, Nonce := nonce, Value := 0, GasLimit := 0, GasFeeCap := 0,
          GasPremium := 0, Method := MethodsMiner.ChangeWorkerAddress, Params := sp }
        none EmptyTSK = .ok est →
      n.ToStorageBlock est = .ok mb →
      n.Sign ownerKey mb = .ok sig →
      n.MpoolPush ⟨est, sig⟩ = .ok smsg →
      n.StateWaitMsg smsg = .ok wait →
      wait.ExitCode = 0 →
      n.StateMinerInfo maddr wait.TipSet = .ok mi2 →
      (actorProposeChangeWorker n c).res =
        if mi2.NewWorker ≠ newAddr then .error (.proposedNotReflected maddr mi2.NewWorker)
        else .ok ()) ∧
    (∀ (head : TipSet) (nonce : Nat) (est : Message) (mb : Cid) (sig : Signature) (smsg : Cid)
        (wait : MsgLookup) (mi2 : MinerInfo),
      mi.NewWorker.Empty = false → mi.NewWorker = newAddr →
      n.ChainHead = .ok head → mi.WorkerChangeEpoch ≤ head.Height →
      mi.Owner = owner →
      n.MpoolGetNonce owner = .ok nonce →
      n.GasEstimateMessageGas
        { To := maddr, From := owner, Nonce := nonce, Value := 0, GasLimit := 0, GasFeeCap := 0,
          GasPremium := 0, Method := MethodsMiner.ConfirmChangeWorkerAddress, Params := [] }
        none EmptyTSK = .ok est →
      n.ToStorageBlock est = .ok mb →
      n.Sign ownerKey mb = .ok sig →
      n.MpoolPush ⟨est, sig⟩ = .ok smsg →
      n.StateWaitMsg smsg = .ok wait →
      wait.ExitCode = 0 →
      n.StateMinerInfo maddr wait.TipSet = .ok mi2 →
      (actorConfirmChangeWorker n c).res =
        if mi2.Worker ≠ newAddr then .error (.confirmedNotReflected newAddr mi2.Worker)
        else .ok ()) := by
  constructor
  · intro sp nonce est mb sig smsg wait mi2 hpre hsp hnonce hest hmb hsig hpush hwait hexit hmi2
    unfold actorProposeChangeWorker
    by_cases hE : mi.NewWorker.Empty = true
    · rw [if_pos hE] at hpre
      by_cases hO : mi.Owner = owner <;> by_cases h2 : mi2.NewWorker = newAddr <;>
        simp [Run.bind_def, Run.pure_def, ho, hm, hmi, hn, hl, hdo, hhex, hjson, hsp, hnonce,
          hest, hmb, hsig, hpush, hwait, hexit, hmi2, hE, hO, h2, hpre, Run.try_, Run.call,
          Run.callWrap, Run.wrapErr, Run.println, Run.emit, Run.ret, Run.fail, Run.returnErr,
          Run.andThen_ok, Run.andThen_res]
    · rw [if_neg hE] at hpre
      by_cases hO : mi.Owner = owner <;> by_cases h2 : mi2.NewWorker = newAddr <;>
        simp [Run.bind_def, Run.pure_def, ho, hm, hmi, hn, hl, hdo, hhex, hjson, hsp, hnonce,
          hest, hmb, hsig, hpush, hwait, hexit, hmi2, hE, hO, h2, hpre, Run.try_, Run.call,
          Run.callWrap, Run.wrapErr, Run.println, Run.emit, Run.ret, Run.fail, Run.returnErr,
          Run.andThen_ok, Run.andThen_res]
  · intro head nonce est mb sig smsg wait mi2 hE hw hhead hheight hO hnonce hest hmb hsig hpush
      hwait hexit hmi2
    unfold actorConfirmChangeWorker
    subst hw
    have hnlt : ¬ head.Height < mi.WorkerChangeEpoch := not_lt.mpr hheight
    by_cases h2 : mi2.Worker = mi.NewWorker <;>
      simp [Run.bind_def, Run.pure_def, ho, hm, hmi, hn, hl, hdo, hhex, hjson, hnonce, hest,
        hmb, hsig, hpush, hwait, hexit, hmi2, hE, hO, h2, hhead, hnlt, Run.try_, Run.tryWrap,
        Run.call, Run.callWrap, Run.wrapErr, Run.println, Run.emit, Run.ret, Run.fail,
        Run.returnErr, Run.andThen_ok, Run.andThen_res]

/-- C15: with `really-do-it` and an on-chain owner different from the given
owner address: `actorConfirmChangeWorker`, with a matching pending change and
the head at or above the activation height, prints the mismatch line and returns
success with no parameter serialization, nonce fetch, gas estimation, message
serialization, signing or push in its trace; `actorProposeChangeWorker`, with
its precondition met, prints the mismatch line and goes on to serialize the
parameters and, when the following steps succeed, to sign and push the propose
message. -/
theorem owner_mismatch_handling (n : Node) (c : ChangeWorkerArgs)
    (owner maddr newmaddr newAddr : Address) (mi : MinerInfo)
    (ho : n.NewFromString c.owner = .ok owner)
    (hm : n.NewFromString c.maddr = .ok maddr)
    (hmi : n.StateMinerInfo maddr EmptyTSK = .ok mi)
    (hn : n.NewFromString c.newaddr = .ok newmaddr)
    (hl : n.StateLookupID newmaddr EmptyTSK = .ok newAddr)
    (hdo : c.reallyDoIt = true)
    (hO : mi.Owner ≠ owner) :
    (∀ head : TipSet, mi.NewWorker.Empty = false → mi.NewWorker = newAddr →
      n.ChainHead = .ok head → mi.WorkerChangeEpoch ≤ head.Height →
      (actorConfirmChangeWorker n c).res = .ok () ∧
      (∀ e ∈ (actorConfirmChangeWorker n c).trace, e.isBuild = false) ∧
      Event.out (.ownerMismatch mi.Owner owner) ∈ (actorConfirmChangeWorker n c).trace) ∧
    ((if mi.NewWorker.Empty then mi.Worker ≠ newAddr else mi.NewWorker ≠ newAddr) →
      Event.out (.ownerMismatch mi.Owner owner) ∈ (actorProposeChangeWorker n c).trace ∧
      Event.serializeParams (.changeWorkerAddress newAddr mi.ControlAddresses)
        ∈ (actorProposeChangeWorker n c).trace ∧
      ∀ (sp : Bytes) (nonce : Nat) (est : Message) (key1 : Bytes) (ownerKey : KeyInfo) (mb : Cid)
          (sig : Signature),
        n.SerializeParams (.changeWorkerAddress newAddr mi.ControlAddresses) = .ok sp →
        n.MpoolGetNonce owner = .ok nonce →
        n.GasEstimateMessageGas
          { To := maddr, From := owner, Nonce := nonce, Value := 0, GasLimit := 0,
            GasFeeCap := 0, GasPremium := 0, Method := MethodsMiner.ChangeWorkerAddress,
            Params := sp }
          none EmptyTSK = .ok est →
        n.hexDecodeString c.key = .ok key1 →
        n.jsonUnmarshal key1 = .ok ownerKey →
        n.ToStorageBlock est = .ok mb →
        n.Sign ownerKey mb = .ok sig →
        Event.sign ownerKey est ∈ (actorProposeChangeWorker n c).trace ∧
        Event.mpoolPush ⟨est, sig⟩ ∈ (actorProposeChangeWorker n c).trace) := by
  constructor
  · intro head hE hw hhead hheight
    subst hw
    have hnlt : ¬ head.Height < mi.WorkerChangeEpoch := not_lt.mpr hheight
    unfold actorConfirmChangeWorker
    simp only [Run.bind_def, Run.pure_def, ho, hm, hmi, hn, hl, hdo, hhead, hE, hO, hnlt,
      Run.try_, Run.tryWrap, Run.wrapErr, Run.call, Run.println, Run.emit, Run.ret,
      Run.andThen_ok, if_true, if_false, Bool.false_eq_true, Bool.not_true, ne_eq,
      not_true_eq_false, not_false_eq_true]
    refine ⟨trivial, ?_, ?_⟩
    · intro e he
      simp at he
      rcases he with rfl | rfl <;> rfl
    · simp
  · intro hpre
    unfold actorProposeChangeWorker
    by_cases hE : mi.NewWorker.Empty = true
    · rw [if_pos hE] at hpre
      refine ⟨?_, ?_, ?_⟩
      · simp [Run.bind_def, Run.pure_def, ho, hm, hmi, hn, hl, hdo, hE, hO, hpre, Run.try_,
          Run.call, Run.callWrap, Run.println, Run.emit, Run.ret, Run.fail, Run.andThen_ok,
          Run.andThen_trace]
      · simp [Run.bind_def, Run.pure_def, ho, hm, hmi, hn, hl, hdo, hE, hO, hpre, Run.try_,
          Run.call, Run.callWrap, Run.println, Run.emit, Run.ret, Run.fail, Run.andThen_ok,
          Run.andThen_trace]
      · intro sp nonce est key1 ownerKey mb sig hsp hnonce hest hhex hjson hmb hsig
        constructor <;>
          simp [Run.bind_def, Run.pure_def, ho, hm, hmi, hn, hl, hdo, hE, hO, hpre, hsp, hnonce,
            hest, hhex, hjson, hmb, hsig, Run.try_, Run.call, Run.callWrap, Run.wrapErr,
            Run.println, Run.emit, Run.ret, Run.fail, Run.andThen_ok, Run.andThen_trace]
    · rw [if_neg hE] at hpre
      refine ⟨?_, ?_, ?_⟩
      · simp [Run.bind_def, Run.pure_def, ho, hm, hmi, hn, hl, hdo, hE, hO, hpre, Run.try_,
          Run.call, Run.callWrap, Run.println, Run.emit, Run.ret, Run.fail, Run.andThen_ok,
          Run.andThen_trace]
      · simp [Run.bind_def, Run.pure_def, ho, hm, hmi, hn, hl, hdo, hE, hO, hpre, Run.try_,
          Run.call, Run.callWrap, Run.println, Run.emit, Run.ret, Run.fail, Run.andThen_ok,
          Run.andThen_trace]
      · intro sp nonce est key1 ownerKey mb sig hsp hnonce hest hhex hjson hmb hsig
        constructor <;>
          simp [Run.bind_def, Run.pure_def, ho, hm, hmi, hn, hl, hdo, hE, hO, hpre, hsp, hnonce,
            hest, hhex, hjson, hmb, hsig, Run.try_, Run.call, Run.callWrap, Run.wrapErr,
            Run.println, Run.emit, Run.ret, Run.fail, Run.andThen_ok, Run.andThen_trace]

/-- Witness for C12 amended: on `manualNode` both strings parse and the signed
message carries premium 100 and fee cap 50; on `badAmountNode` the command
returns the wrapped parse error. -/
theorem replace_fee_parameters_witness :
    (({ pendingMsg.Message with GasFeeCap := 50, GasPremium := 100 } : Message).GasPremium = 100 ∧
      ({ pendingMsg.Message with GasFeeCap := 50, GasPremium := 100 } : Message).GasFeeCap = 50) ∧
    (offlineMpoolReplaceCmd 100000000 badAmountNode demoManualArgs).res
      = .error (.wrapped "parsing gas-premium" (.ext "bad amount")) :=
  ⟨((((replace_fee_parameters 100000000 manualNode demoManualArgs).2 rfl
      pendingMsg.Message rfl).2.2 100 50 rfl rfl).1
      { pendingMsg.Message with GasFeeCap := 50, GasPremium := 100 } (by decide)),
   ((((replace_fee_parameters 100000000 badAmountNode demoManualArgs).2 rfl
      pendingMsg.Message rfl).1 (.ext "bad amount") rfl).1)⟩

/-- Witness for C14: on `proposingNode` the proposal of `f0300` is found pending
after inclusion, on `confirmingNode` the worker is found to be `f0300`. -/
theorem changeWorker_postcondition_witness :
    (actorProposeChangeWorker proposingNode (demoChangeWorkerArgs "f0300" true)).res
      = (if (pendingInfo 150).NewWorker ≠ ⟨"f0300"⟩ then
          .error (.proposedNotReflected ⟨"f01000"⟩ (pendingInfo 150).NewWorker)
        else .ok ()) ∧
    (actorConfirmChangeWorker confirmingNode (demoChangeWorkerArgs "f0300" true)).res
      = (if (⟨"f0300"⟩ : Address) ≠ ⟨"f0300"⟩ then
          .error (.confirmedNotReflected ⟨"f0300"⟩ ⟨"f0300"⟩)
        else .ok ()) :=
  ⟨(changeWorker_postcondition proposingNode (demoChangeWorkerArgs "f0300" true)
      ⟨"f3owner"⟩ ⟨"f01000"⟩ ⟨"f0300"⟩ ⟨"f0300"⟩
      ⟨⟨"f3owner"⟩, ⟨"f0200"⟩, Address.Undef, [⟨"f0100"⟩, ⟨"f3bbb"⟩], 0⟩ [] ⟨"secp256k1", []⟩
      rfl rfl rfl rfl rfl rfl rfl rfl).1 [] 7 _ 1 2 3 ⟨0, [7]⟩ (pendingInfo 150)
      (by decide) rfl rfl rfl rfl rfl rfl rfl rfl rfl,
   (changeWorker_postcondition confirmingNode (demoChangeWorkerArgs "f0300" true)
      ⟨"f3owner"⟩ ⟨"f01000"⟩ ⟨"f0300"⟩ ⟨"f0300"⟩ (pendingInfo 100) [] ⟨"secp256k1", []⟩
      rfl rfl rfl rfl rfl rfl rfl rfl).2 ⟨[], 100⟩ 7 _ 1 2 3 ⟨0, [7]⟩
      ⟨⟨"f3owner"⟩, ⟨"f0300"⟩, Address.Undef, [⟨"f0100"⟩, ⟨"f3bbb"⟩], 0⟩
      rfl rfl rfl (by decide) rfl rfl rfl rfl rfl rfl rfl rfl rfl⟩

/-- Witness for C15: for the caller `f3other`, who is not the owner `f3owner`,
confirming on `pendingNode 100` returns success, and proposing `f0300` on
`demoNode` prints the mismatch line and serializes the parameters. -/
theorem owner_mismatch_handling_witness :
    (actorConfirmChangeWorker (pendingNode 100) (otherOwnerArgs "f0300")).res = .ok () ∧
    Event.out (.ownerMismatch ⟨"f3owner"⟩ ⟨"f3other"⟩)
      ∈ (actorProposeChangeWorker demoNode (otherOwnerArgs "f0300")).trace ∧
    Event.serializeParams (.changeWorkerAddress ⟨"f0300"⟩ [⟨"f0100"⟩, ⟨"f3bbb"⟩])
      ∈ (actorProposeChangeWorker demoNode (otherOwnerArgs "f0300")).trace :=
  ⟨((owner_mismatch_handling (pendingNode 100) (otherOwnerArgs "f0300")
      ⟨"f3other"⟩ ⟨"f01000"⟩ ⟨"f0300"⟩ ⟨"f0300"⟩ (pendingInfo 100)
      rfl rfl rfl rfl rfl rfl (by decide)).1 ⟨[], 100⟩ rfl rfl rfl (by decide)).1,
   ((owner_mismatch_handling demoNode (otherOwnerArgs "f0300")
      ⟨"f3other"⟩ ⟨"f01000"⟩ ⟨"f0300"⟩ ⟨"f0300"⟩
      ⟨⟨"f3owner"⟩, ⟨"f0200"⟩, Address.Undef, [⟨"f0100"⟩, ⟨"f3bbb"⟩], 0⟩
      rfl rfl rfl rfl rfl rfl (by decide)).2 (by decide)).1,
   ((owner_mismatch_handling demoNode (otherOwnerArgs "f0300")
      ⟨"f3other"⟩ ⟨"f01000"⟩ ⟨"f0300"⟩ ⟨"f0300"⟩
      ⟨⟨"f3owner"⟩, ⟨"f0200"⟩, Address.Undef, [⟨"f0100"⟩, ⟨"f3bbb"⟩], 0⟩
      rfl rfl rfl rfl rfl rfl (by decide)).2 (by decide)).2.1⟩

end OfflineSign
